import Mathlib

/-!
# Shallow embedding of the PCC-Vivace congestion controller

This file models `src/CongestionController.{h,cpp}` and
`src/MonitorIntervalQueue.{h,cpp}` in Lean 4, and proves (or refutes)
the frozen claims about them.

Modelling conventions:
* C++ `double`/`float` values (`QuicBandwidth`, utilities, gradients,
  amplifiers, tolerances) are modelled by exact rationals `ℚ`.
* `int64_t`/`int32_t` values (`QuicTime`, `QuicByteCount`,
  `QuicPacketNumber`) are modelled by `ℤ`; `size_t` counters by `ℕ`.
* A C++ cast from a floating value to an integer type truncates toward
  zero; it is modelled by `truncQ`.  C++ integer division also truncates
  toward zero; it is modelled by `Int.tdiv`.
* Division by zero in `ℚ` yields 0 (where the C++ would produce an
  inf/NaN double); no claim below depends on such a state.
* The single transcendental in the code, `pow(x, 0.9)` inside the
  utility function, is passed in as an explicit function parameter
  `rpow09 : ℚ → ℚ`; every claim holds for all values of that parameter.
* `rand() % 2 == 1` in `MaybeSetSendingRate` is passed in as an explicit
  `Bool` parameter.
-/

/-- Truncation toward zero of a rational, as a C++ cast to an integer type. -/
def truncQ (q : ℚ) : ℤ := q.num.tdiv q.den

/-! ## Constants (anonymous namespaces of both .cpp files) -/

/-- `kMegabit = 1024 * 1024`. -/
def kMegabit : ℚ := 1024 * 1024

/-- `kMinSendingRate = 2.0f * kMegabit`. -/
def kMinSendingRate : ℚ := 2 * kMegabit

/-- `kMinimumRateChange = (int64_t)(0.5f * kMegabit)`. -/
def kMinimumRateChange : ℚ := 524288

/-- `kDefaultTCPMSS = 1400`. -/
def kDefaultTCPMSS : ℕ := 1400

/-- `kProbingStepSize = 0.05f`. -/
def kProbingStepSize : ℚ := 1 / 20

/-- `kDecisionMadeStepSize = 0.02f`. -/
def kDecisionMadeStepSize : ℚ := 1 / 50

/-- `kMaxDecisionMadeStepSize = 0.10f`. -/
def kMaxDecisionMadeStepSize : ℚ := 1 / 10

/-- `kNumIntervalGroupsInProbing = 2`. -/
def kNumIntervalGroupsInProbing : ℕ := 2

/-- `kBitsPerByte = 8`. -/
def kBitsPerByte : ℕ := 8

/-- `kMinimumPacketsPerInterval = 10`. -/
def kMinimumPacketsPerInterval : ℕ := 10

/-- `kAvgGradientSampleSize = 1`. -/
def kAvgGradientSampleSize : ℕ := 1

/-- `kUtilityGradientToRateChangeFactor = 1.0f * kMegabit`. -/
def kUtilityGradientToRateChangeFactor : ℚ := kMegabit

/-- `kInitialMaximumProportionalChange = 0.05f`. -/
def kInitialMaximumProportionalChange : ℚ := 1 / 20

/-- `kMaximumProportionalChangeStepSize = 0.06f`. -/
def kMaximumProportionalChangeStepSize : ℚ := 3 / 50

/-- `FLAGS_max_rtt_fluctuation_tolerance_ratio_in_starting = 0.3f`. -/
def FLAGS_max_rtt_fluctuation_tolerance_ratio_in_starting : ℚ := 3 / 10

/-- `FLAGS_max_rtt_fluctuation_tolerance_ratio_in_decision_made = 0.05f`. -/
def FLAGS_max_rtt_fluctuation_tolerance_ratio_in_decision_made : ℚ := 1 / 20

/-- `kLatencyCoefficient = 1`. -/
def kLatencyCoefficient : ℚ := 1

/-- `kAlpha = 1`. -/
def kAlpha : ℚ := 1

/-! ## Data model (MonitorIntervalQueue.h) -/

/-- `struct PacketRttSample`. -/
structure PacketRttSample where
  packet_number : ℤ := 0
  sample_rtt : ℤ := 0
deriving DecidableEq

/-- `struct CongestionEvent` (an entry of `AckedPacketVector` / `LostPacketVector`). -/
structure CongestionEvent where
  packet_number : ℤ := 0
  bytes_acked : ℤ := 0
  bytes_lost : ℤ := 0
  time : ℤ := 0
deriving DecidableEq

/-- `struct MonitorInterval`, with the member defaults of the header. -/
structure MonitorInterval where
  sending_rate : ℚ := 0
  is_useful : Bool := false
  rtt_fluctuation_tolerance_ratio : ℚ := 0
  end_time : ℤ := 0
  first_packet_sent_time : ℤ := 0
  last_packet_sent_time : ℤ := 0
  first_packet_number : ℤ := 0
  last_packet_number : ℤ := 0
  bytes_sent : ℤ := 0
  bytes_acked : ℤ := 0
  bytes_lost : ℤ := 0
  rtt_on_monitor_start_us : ℤ := 0
  rtt_on_monitor_end_us : ℤ := 0
  utility : ℚ := 0
  n_packets : ℤ := 0
  packet_rtt_samples : List PacketRttSample := []
deriving DecidableEq

instance : Inhabited MonitorInterval := ⟨{}⟩

/-- The `MonitorInterval` constructor of MonitorIntervalQueue.cpp. -/
def MonitorInterval.mkNew (sending_rate : ℚ) (is_useful : Bool)
    (rtt_fluctuation_tolerance : ℚ) (rtt_us : ℤ) (end_time : ℤ) : MonitorInterval :=
  { sending_rate := sending_rate
    is_useful := is_useful
    rtt_fluctuation_tolerance_ratio := rtt_fluctuation_tolerance
    end_time := end_time
    rtt_on_monitor_start_us := rtt_us
    rtt_on_monitor_end_us := rtt_us }

/-- `struct UtilityInfo`. -/
structure UtilityInfo where
  sending_rate : ℚ := 0
  utility : ℚ := 0
deriving DecidableEq

instance : Inhabited UtilityInfo := ⟨{}⟩

/-- The state of `class MonitorIntervalQueue` (the `std::deque` is a list,
front first). -/
structure MonitorIntervalQueue where
  monitor_intervals : List MonitorInterval := []
  num_useful_intervals : ℕ := 0
  num_available_intervals : ℕ := 0
deriving DecidableEq

instance : Inhabited MonitorIntervalQueue := ⟨{}⟩

/-! ## MonitorIntervalQueue operations -/

/-- `MonitorIntervalQueue::EnqueueNewMonitorInterval`. -/
def MonitorIntervalQueue.EnqueueNewMonitorInterval (q : MonitorIntervalQueue)
    (sending_rate : ℚ) (is_useful : Bool) (rtt_fluctuation_tolerance : ℚ)
    (rtt_us : ℤ) (end_time : ℤ) : MonitorIntervalQueue :=
  { q with
    num_useful_intervals :=
      if is_useful then q.num_useful_intervals + 1 else q.num_useful_intervals
    monitor_intervals := q.monitor_intervals ++
      [MonitorInterval.mkNew sending_rate is_useful rtt_fluctuation_tolerance rtt_us end_time] }

/-- Apply `f` to the back of the deque (`monitor_intervals_.back()`). -/
def updateLastInterval (f : MonitorInterval → MonitorInterval) :
    List MonitorInterval → List MonitorInterval
  | [] => []
  | [mi] => [f mi]
  | mi :: mi2 :: rest => mi :: updateLastInterval f (mi2 :: rest)

/-- `MonitorIntervalQueue::OnPacketSent`. -/
def MonitorIntervalQueue.OnPacketSent (q : MonitorIntervalQueue)
    (sent_time : ℤ) (packet_number : ℤ) (bytes : ℤ) : MonitorIntervalQueue :=
  { q with monitor_intervals := updateLastInterval (fun mi =>
      let mi := if mi.bytes_sent = 0 then
          { mi with first_packet_sent_time := sent_time, first_packet_number := packet_number }
        else mi
      { mi with
        last_packet_sent_time := sent_time
        last_packet_number := packet_number
        bytes_sent := mi.bytes_sent + bytes
        n_packets := mi.n_packets + 1 }) q.monitor_intervals }

/-- `MonitorIntervalQueue::OnRttInflationInStarting`. -/
def MonitorIntervalQueue.OnRttInflationInStarting
    (_q : MonitorIntervalQueue) : MonitorIntervalQueue := {}

/-- `MonitorIntervalQueue::IsUtilityAvailable`. -/
def IsUtilityAvailable (mi : MonitorInterval) (event_time : ℤ) : Bool :=
  decide (event_time ≥ mi.end_time) &&
  decide (mi.bytes_acked + mi.bytes_lost = mi.bytes_sent)

/-- `MonitorIntervalQueue::IntervalContainsPacket`. -/
def IntervalContainsPacket (mi : MonitorInterval) (packet_number : ℤ) : Bool :=
  decide (packet_number ≥ mi.first_packet_number) &&
  decide (packet_number ≤ mi.last_packet_number)

/-- The lost-packet loop of `MonitorIntervalQueue::OnCongestionEvent`. -/
def applyLostPackets (mi : MonitorInterval) (lost_packets : List CongestionEvent) :
    MonitorInterval :=
  lost_packets.foldl (fun mi lp =>
    if IntervalContainsPacket mi lp.packet_number then
      { mi with bytes_lost := mi.bytes_lost + lp.bytes_lost }
    else mi) mi

/-- The acked-packet loop of `MonitorIntervalQueue::OnCongestionEvent`. -/
def applyAckedPackets (mi : MonitorInterval) (acked_packets : List CongestionEvent)
    (rtt_us : ℤ) : MonitorInterval :=
  acked_packets.foldl (fun mi ap =>
    if IntervalContainsPacket mi ap.packet_number then
      { mi with
        bytes_acked := mi.bytes_acked + ap.bytes_acked
        packet_rtt_samples := mi.packet_rtt_samples ++
          [{ packet_number := ap.packet_number, sample_rtt := rtt_us }] }
    else mi) mi

/-- Loss attribution followed by ack attribution, as in the per-interval body
of `MonitorIntervalQueue::OnCongestionEvent`. -/
def attributeInterval (acked_packets lost_packets : List CongestionEvent)
    (rtt_us : ℤ) (mi : MonitorInterval) : MonitorInterval :=
  applyAckedPackets (applyLostPackets mi lost_packets) acked_packets rtt_us

/-- Sum of the rtt samples of a list, accumulated in a float as in the
half-sum loops of `CalculateUtility`. -/
def sumRttQ (l : List PacketRttSample) : ℚ :=
  l.foldl (fun a s => a + (s.sample_rtt : ℚ)) 0

/-- `MonitorIntervalQueue::CalculateUtility` (the active, un-commented
version).  Returns `none` for invalid utility (the C++ `false` return, which
leaves `interval->utility` unwritten), otherwise `some` of the interval with
its utility field set.  `rpow09 x` stands for `pow(x, kExponent)` with
`kExponent = 0.9`. -/
def CalculateUtility (rpow09 : ℚ → ℚ) (mi : MonitorInterval) : Option MonitorInterval :=
  if mi.last_packet_sent_time = mi.first_packet_sent_time then
    none
  else
    let mi_duration : ℤ := max 1 (mi.last_packet_sent_time - mi.first_packet_sent_time)
    let mi_time_seconds : ℚ := (mi_duration : ℚ) / 1000000
    let bytes_lost : ℚ := (mi.bytes_lost : ℚ)
    let bytes_sent : ℚ := (mi.bytes_sent : ℚ)
    let sending_rate_bps : ℚ := bytes_sent * 8 / mi_time_seconds
    let sending_factor : ℚ := kAlpha * rpow09 (sending_rate_bps / kMegabit)
    let half_samples : ℕ := mi.packet_rtt_samples.length / 2
    let rtt_first_half_sum : ℚ := sumRttQ (mi.packet_rtt_samples.take half_samples)
    let rtt_second_half_sum : ℚ :=
      sumRttQ ((mi.packet_rtt_samples.drop half_samples).take half_samples)
    let latency_inflation : ℚ :=
      2 * (rtt_second_half_sum - rtt_first_half_sum) /
        (rtt_first_half_sum + rtt_second_half_sum)
    let rtt_penalty : ℚ :=
      (((truncQ ((truncQ (latency_inflation * 100) : ℚ) / 100 * 100)).tdiv 2 * 2 : ℤ) : ℚ) / 100
    let rtt_contribution : ℚ :=
      kLatencyCoefficient * 11330 * bytes_sent * rtt_penalty ^ (1 : ℕ)
    let loss_rate : ℚ := bytes_lost / bytes_sent
    let loss_contribution : ℚ :=
      if loss_rate ≤ 3 / 100 then
        (mi.n_packets : ℚ) * (1 * ((1 + loss_rate) ^ (1 : ℕ) - 1))
      else
        (mi.n_packets : ℚ) * ((1135 / 100) * ((1 + loss_rate) ^ (1 : ℕ) - 1))
    let current_utility : ℚ :=
      sending_factor -
        (loss_contribution + rtt_contribution) * (sending_rate_bps / kMegabit) /
          (mi.n_packets : ℚ)
    some { mi with utility := current_utility }

/-- The per-interval loop of `MonitorIntervalQueue::OnCongestionEvent`:
returns the updated deque, the final `num_available_intervals_`, and
`has_invalid_utility`.  When an invalid utility is found the loop breaks,
leaving the remaining intervals untouched. -/
def processIntervals (rpow09 : ℚ → ℚ) (acked_packets lost_packets : List CongestionEvent)
    (rtt_us event_time : ℤ) : List MonitorInterval → List MonitorInterval × ℕ × Bool
  | [] => ([], 0, false)
  | mi :: rest =>
    if mi.is_useful = false then
      let r := processIntervals rpow09 acked_packets lost_packets rtt_us event_time rest
      (mi :: r.1, r.2.1, r.2.2)
    else if IsUtilityAvailable mi event_time then
      let r := processIntervals rpow09 acked_packets lost_packets rtt_us event_time rest
      (mi :: r.1, r.2.1 + 1, r.2.2)
    else
      let mi1 := attributeInterval acked_packets lost_packets rtt_us mi
      if IsUtilityAvailable mi1 event_time then
        let mi2 := { mi1 with rtt_on_monitor_end_us := rtt_us }
        match CalculateUtility rpow09 mi2 with
        | none => (mi2 :: rest, 0, true)
        | some mi3 =>
          let r := processIntervals rpow09 acked_packets lost_packets rtt_us event_time rest
          (mi3 :: r.1, r.2.1 + 1, r.2.2)
      else
        let r := processIntervals rpow09 acked_packets lost_packets rtt_us event_time rest
        (mi1 :: r.1, r.2.1, r.2.2)

/-- The drain loop at the end of `MonitorIntervalQueue::OnCongestionEvent`:
pop from the front until `num_useful_intervals_` reaches 0. -/
def drainIntervals : List MonitorInterval → ℕ → List MonitorInterval × ℕ
  | l, 0 => (l, 0)
  | [], n + 1 => ([], n + 1)
  | mi :: rest, n + 1 =>
    drainIntervals rest (if mi.is_useful then n else n + 1)

/-- The batch the queue builds for the delegate: one `UtilityInfo` per useful
interval, in deque order. -/
def utilityBatch (intervals : List MonitorInterval) : List UtilityInfo :=
  (intervals.filter (fun mi => mi.is_useful)).map
    (fun mi => { sending_rate := mi.sending_rate, utility := mi.utility })

/-- `MonitorIntervalQueue::OnCongestionEvent`, as a function from the queue
state to the new queue state together with the batch passed to
`delegate_.OnUtilityAvailable` (or `none` when the delegate is not called). -/
def MonitorIntervalQueue.OnCongestionEventStep (rpow09 : ℚ → ℚ)
    (q : MonitorIntervalQueue) (acked_packets lost_packets : List CongestionEvent)
    (rtt_us event_time : ℤ) : MonitorIntervalQueue × Option (List UtilityInfo) :=
  if q.num_useful_intervals = 0 then
    ({ q with num_available_intervals := 0 }, none)
  else
    let r := processIntervals rpow09 acked_packets lost_packets rtt_us event_time
      q.monitor_intervals
    if q.num_useful_intervals > r.2.1 ∧ r.2.2 = false then
      ({ q with monitor_intervals := r.1, num_available_intervals := r.2.1 }, none)
    else
      let batch : Option (List UtilityInfo) :=
        if r.2.2 = false then some (utilityBatch r.1) else none
      let d := drainIntervals r.1 q.num_useful_intervals
      ({ monitor_intervals := d.1, num_useful_intervals := d.2,
         num_available_intervals := 0 }, batch)

/-! ## CongestionController (CongestionController.h / .cpp) -/

/-- `enum SenderMode`. -/
inductive SenderMode
  | STARTING
  | PROBING
  | DECISION_MADE
deriving DecidableEq

/-- `enum RateChangeDirection`. -/
inductive RateChangeDirection
  | INCREASE
  | DECREASE
deriving DecidableEq

open SenderMode RateChangeDirection

/-- The state of `class CongestionController`, with the member initializers of
the header.  (`max_cwnd_bits_` is declared in the header but never written or
read; it is omitted.) -/
structure CongestionController where
  mode : SenderMode := STARTING
  sending_rate : ℚ
  latest_utility_info : UtilityInfo := {}
  monitor_duration : ℤ := 0
  direction : RateChangeDirection := INCREASE
  rounds : ℕ := 1
  queue : MonitorIntervalQueue := {}
  avg_gradient : ℚ := 0
  gradient_samples : List ℚ := []
  initial_rtt : ℤ := 0
  avg_rtt : ℤ := 0
  swing_buffer : ℕ := 0
  rate_change_amplifier : ℚ := 0
  rate_change_proportion_allowance : ℕ := 0
  previous_change : ℚ := 0
deriving DecidableEq

/-- The `CongestionController` constructor. -/
def CongestionController.init (initial_rtt_us : ℤ)
    (initial_congestion_window : ℤ) (_max_congestion_window : ℤ) :
    CongestionController :=
  { sending_rate :=
      (initial_congestion_window : ℚ) * (kDefaultTCPMSS : ℚ) * (kBitsPerByte : ℚ) *
        1000000 / (initial_rtt_us : ℚ)
    initial_rtt := initial_rtt_us }

/-- `interval_queue_.current()` — the back of the deque.  (Calling it on an
empty deque is undefined behaviour in C++; the model returns the
default-constructed interval there.) -/
def currentMI (q : MonitorIntervalQueue) : MonitorInterval :=
  q.monitor_intervals.getLast?.getD default

/-- `CongestionController::ComputeMonitorDuration`; the `double` result is
implicitly converted to `QuicTime`. -/
def CongestionController.ComputeMonitorDuration (sending_rate : ℚ) (rtt : ℤ) : ℤ :=
  truncQ (max ((3 / 2 : ℚ) * (rtt : ℚ))
    (((kMinimumPacketsPerInterval * kBitsPerByte * kDefaultTCPMSS : ℕ) : ℚ) / sending_rate))

/-- `CongestionController::PacingRate`. -/
def CongestionController.PacingRate (c : CongestionController) : ℚ :=
  if c.queue.monitor_intervals.isEmpty then c.sending_rate
  else (currentMI c.queue).sending_rate

/-- `CongestionController::GetCongestionWindow`. -/
def CongestionController.GetCongestionWindow (c : CongestionController) : ℤ :=
  let rtt_us : ℤ := if c.avg_rtt = 0 then c.initial_rtt else c.avg_rtt
  truncQ (c.sending_rate * (rtt_us : ℚ) / 1000000)

/-- The `(avg_gradient_, gradient_samples_)` update of
`CongestionController::UpdateAverageGradient`. -/
def updateAverageGradientPair (avg : ℚ) (samples : List ℚ) (g : ℚ) : ℚ × List ℚ :=
  if samples.length = 0 then
    (g, samples ++ [g])
  else if samples.length < kAvgGradientSampleSize then
    ((avg * (samples.length : ℚ) + g) / ((samples.length : ℚ) + 1), samples ++ [g])
  else
    (avg - samples.headD 0 / (kAvgGradientSampleSize : ℚ) +
       g / (kAvgGradientSampleSize : ℚ),
     samples.tail ++ [g])

/-- `CongestionController::UpdateAverageGradient`. -/
def CongestionController.UpdateAverageGradient (c : CongestionController)
    (new_gradient : ℚ) : CongestionController :=
  { c with
    avg_gradient := (updateAverageGradientPair c.avg_gradient c.gradient_samples new_gradient).1
    gradient_samples := (updateAverageGradientPair c.avg_gradient c.gradient_samples new_gradient).2 }

/-- The piecewise-linear amplification factor applied to `change` in
`CongestionController::ComputeRateChange`. -/
def amplifierFactor (a : ℚ) : ℚ :=
  if a < 3 then a + 1
  else if a < 6 then 2 * a - 2
  else if a < 9 then 4 * a - 14
  else 9 * a - 50

/-- The first sign-mismatch block of `ComputeRateChange` (reset amplifier and
allowance, bump the swing buffer). -/
def signFlipReset (c : CongestionController) (change : ℚ) : CongestionController :=
  if decide (change > 0) ≠ decide (c.previous_change > 0) then
    { c with
      rate_change_amplifier := 0
      rate_change_proportion_allowance := 0
      swing_buffer := if c.swing_buffer < 2 then c.swing_buffer + 1 else c.swing_buffer }
  else c

/-- The same-sign block of `ComputeRateChange` (bump the amplifier when the
swing buffer is empty, else decrement the swing buffer). -/
def sameSignBump (c : CongestionController) (change : ℚ) : CongestionController :=
  if decide (change > 0) = decide (c.previous_change > 0) then
    if c.swing_buffer = 0 then
      { c with rate_change_amplifier :=
          if c.rate_change_amplifier < 3 then c.rate_change_amplifier + 1 / 2
          else c.rate_change_amplifier + 1 }
    else { c with swing_buffer := c.swing_buffer - 1 }
  else c

/-- The proportional-cap block of `ComputeRateChange`. -/
def capProposedChange (c : CongestionController) (change : ℚ) :
    ℚ × CongestionController :=
  let max_allowed_change_ratio : ℚ :=
    kInitialMaximumProportionalChange +
      (c.rate_change_proportion_allowance : ℚ) * kMaximumProportionalChangeStepSize
  let change_ratio0 : ℚ := change / c.sending_rate
  let change_ratio : ℚ := if change_ratio0 > 0 then change_ratio0 else -1 * change_ratio0
  if change_ratio > max_allowed_change_ratio then
    (if change < 0 then -1 * max_allowed_change_ratio * c.sending_rate
     else max_allowed_change_ratio * c.sending_rate,
     { c with rate_change_proportion_allowance := c.rate_change_proportion_allowance + 1 })
  else
    (change,
     if c.rate_change_proportion_allowance > 0 then
       { c with rate_change_proportion_allowance := c.rate_change_proportion_allowance - 1 }
     else c)

/-- The second sign-mismatch block of `ComputeRateChange` (reset amplifier and
allowance once more after clipping). -/
def secondSignFlipReset (c : CongestionController) (change : ℚ) : CongestionController :=
  if decide (change > 0) ≠ decide (c.previous_change > 0) then
    { c with rate_change_amplifier := 0, rate_change_proportion_allowance := 0 }
  else c

/-- The final flooring step of `ComputeRateChange`. -/
def rateChangeFloor (change : ℚ) : ℚ :=
  if change < 0 ∧ change > -1 * kMinimumRateChange then -1 * kMinimumRateChange
  else if change > 0 ∧ change < kMinimumRateChange then kMinimumRateChange
  else change

/-- `CongestionController::ComputeRateChange`.  Returns the change together
with the updated controller state (the C++ method mutates `avg_gradient_`,
`gradient_samples_`, `rate_change_amplifier_`,
`rate_change_proportion_allowance_` and `swing_buffer_`). -/
def CongestionController.ComputeRateChange (c : CongestionController)
    (utility_sample_1 utility_sample_2 : UtilityInfo) : ℚ × CongestionController :=
  if utility_sample_1.sending_rate = utility_sample_2.sending_rate then
    (kMinimumRateChange, c)
  else
    let utility_gradient : ℚ :=
      kMegabit * (utility_sample_1.utility - utility_sample_2.utility) /
        (utility_sample_1.sending_rate - utility_sample_2.sending_rate)
    let c := c.UpdateAverageGradient utility_gradient
    let change : ℚ := c.avg_gradient * kUtilityGradientToRateChangeFactor
    let c := signFlipReset c change
    let change := change * amplifierFactor c.rate_change_amplifier
    let c := sameSignBump c change
    let p := capProposedChange c change
    let change := p.1
    let c := secondSignFlipReset p.2 change
    (rateChangeFloor change, c)

/-- `CongestionController::CanMakeDecision` (with
`kNumIntervalGroupsInProbing = 2`, the loop checks groups 0 and 1). -/
def CanMakeDecision (utility_info : List UtilityInfo) : Bool :=
  if utility_info.length < 2 * kNumIntervalGroupsInProbing then false
  else
    let groupIncrease : ℕ → Bool := fun i =>
      if (utility_info.getD (2 * i) default).utility >
          (utility_info.getD (2 * i + 1) default).utility then
        decide ((utility_info.getD (2 * i) default).sending_rate >
          (utility_info.getD (2 * i + 1) default).sending_rate)
      else
        decide ((utility_info.getD (2 * i) default).sending_rate <
          (utility_info.getD (2 * i + 1) default).sending_rate)
    groupIncrease 0 = groupIncrease 1

/-- `CongestionController::EnterProbing`. -/
def CongestionController.EnterProbing (c : CongestionController) : CongestionController :=
  let c :=
    match c.mode with
    | STARTING => { c with sending_rate := c.sending_rate * (1 / 2 : ℚ) }
    | DECISION_MADE =>
      if c.direction = INCREASE then
        { c with sending_rate := c.sending_rate *
            (1 / (1 + min ((c.rounds : ℚ) * kDecisionMadeStepSize) kMaxDecisionMadeStepSize)) }
      else
        { c with sending_rate := c.sending_rate *
            (1 / (1 - min ((c.rounds : ℚ) * kDecisionMadeStepSize) kMaxDecisionMadeStepSize)) }
    | PROBING =>
      if (currentMI c.queue).is_useful then
        if c.direction = INCREASE then
          { c with sending_rate := c.sending_rate * (1 / (1 + kProbingStepSize)) }
        else
          { c with sending_rate := c.sending_rate * (1 / (1 - kProbingStepSize)) }
      else c
  if c.mode = PROBING then
    { c with rounds := c.rounds + 1 }
  else
    { c with mode := PROBING, rounds := 1 }

/-- `CongestionController::EnterDecisionMade`. -/
def CongestionController.EnterDecisionMade (c : CongestionController)
    (new_rate : ℚ) : CongestionController :=
  { c with sending_rate := new_rate, mode := DECISION_MADE, rounds := 1 }

/-- `CongestionController::OnUtilityAvailable` — the state-machine step on a
utility batch.  (C++ indexes `utility_info[i]` without a bounds check; the
model substitutes the default `UtilityInfo` out of range.) -/
def CongestionController.OnUtilityAvailable (c : CongestionController)
    (utility_info : List UtilityInfo) : CongestionController :=
  match c.mode with
  | STARTING =>
    if (utility_info.getD 0 default).utility > c.latest_utility_info.utility then
      { c with
        sending_rate := c.sending_rate * 2
        latest_utility_info := utility_info.getD 0 default
        rounds := c.rounds + 1 }
    else
      c.EnterProbing
  | PROBING =>
    if CanMakeDecision utility_info then
      let u0 := utility_info.getD 0 default
      let u1 := utility_info.getD 1 default
      let u2 := utility_info.getD (2 * kNumIntervalGroupsInProbing - 2) default
      let u3 := utility_info.getD (2 * kNumIntervalGroupsInProbing - 1) default
      let c := { c with
        direction :=
          if u0.utility > u1.utility then
            (if u0.sending_rate > u1.sending_rate then INCREASE else DECREASE)
          else
            (if u0.sending_rate > u1.sending_rate then DECREASE else INCREASE)
        latest_utility_info := if u2.utility > u3.utility then u2 else u3 }
      let p := c.ComputeRateChange u0 u1
      let c := p.2
      let rate_change : ℚ :=
        if c.sending_rate + p.1 < kMinSendingRate then kMinSendingRate - c.sending_rate
        else p.1
      CongestionController.EnterDecisionMade
        { c with previous_change := rate_change } (c.sending_rate + rate_change)
    else
      c.EnterProbing
  | DECISION_MADE =>
    let p := c.ComputeRateChange (utility_info.getD 0 default) c.latest_utility_info
    let c := p.2
    let rate_change : ℚ :=
      if c.sending_rate + p.1 < kMinSendingRate then kMinSendingRate - c.sending_rate
      else p.1
    if decide (rate_change > 0) = decide (c.previous_change > 0) then
      { c with
        previous_change := rate_change
        sending_rate := c.sending_rate + rate_change
        latest_utility_info := utility_info.getD 0 default }
    else
      c.EnterProbing

/-- `CongestionController::CreateUsefulInterval`. -/
def CongestionController.CreateUsefulInterval (c : CongestionController) : Bool :=
  if c.avg_rtt = 0 then false
  else
    let max_num_useful : ℕ :=
      if c.mode = PROBING then 2 * kNumIntervalGroupsInProbing else 1
    decide (c.queue.num_useful_intervals < max_num_useful)

/-- `CongestionController::MaybeSetSendingRate`.  `randIncrease` stands for
`rand() % 2 == 1`. -/
def CongestionController.MaybeSetSendingRate (c : CongestionController)
    (randIncrease : Bool) : CongestionController :=
  if c.mode ≠ PROBING ∨
      (c.queue.num_useful_intervals = 2 * kNumIntervalGroupsInProbing ∧
        (currentMI c.queue).is_useful = false) then
    c
  else
    let c1 :=
      if c.queue.num_useful_intervals ≠ 0 then
        if c.direction = INCREASE then
          { c with sending_rate := c.sending_rate * (1 / (1 + kProbingStepSize)) }
        else
          { c with sending_rate := c.sending_rate * (1 / (1 - kProbingStepSize)) }
      else c
    if c.queue.num_useful_intervals ≠ 0 ∧
        c.queue.num_useful_intervals = 2 * kNumIntervalGroupsInProbing then
      c1
    else
      let dir : RateChangeDirection :=
        if c.queue.num_useful_intervals % 2 = 0 then
          (if randIncrease then INCREASE else DECREASE)
        else
          (if c.direction = INCREASE then DECREASE else INCREASE)
      if dir = INCREASE then
        { c1 with direction := dir, sending_rate := c1.sending_rate * (1 + kProbingStepSize) }
      else
        { c1 with direction := dir, sending_rate := c1.sending_rate * (1 - kProbingStepSize) }

/-- `CongestionController::OnPacketSent` (the `bytes_in_flight` and
`is_retransmittable` parameters of the C++ are unused). -/
def CongestionController.OnPacketSent (c : CongestionController)
    (sent_time packet_number bytes : ℤ) (randIncrease : Bool) : CongestionController :=
  let c :=
    if c.queue.num_useful_intervals = 0 ∨
        (c.avg_rtt ≠ 0 ∧
          sent_time - (currentMI c.queue).first_packet_sent_time > c.monitor_duration) then
      let c := c.MaybeSetSendingRate randIncrease
      let c := { c with
        monitor_duration := CongestionController.ComputeMonitorDuration c.sending_rate c.avg_rtt }
      let tol : ℚ :=
        if c.mode = STARTING then FLAGS_max_rtt_fluctuation_tolerance_ratio_in_starting
        else if c.mode = DECISION_MADE then
          FLAGS_max_rtt_fluctuation_tolerance_ratio_in_decision_made
        else 0
      let is_useful := c.CreateUsefulInterval
      let q := c.queue.EnqueueNewMonitorInterval c.sending_rate is_useful tol c.avg_rtt
        (sent_time + c.monitor_duration)
      { c with queue := q }
    else c
  { c with queue := c.queue.OnPacketSent sent_time packet_number bytes }

/-- The guard of the RTT-inflation fast path in
`CongestionController::OnCongestionEvent`.  (It reads only `mode_`, the queue
and the raw `rtt` argument, so it is insensitive to the `avg_rtt_` update that
precedes it.) -/
def rttInflationFastPath (c : CongestionController) (rtt : ℤ) : Prop :=
  rtt ≠ 0 ∧ c.mode = STARTING ∧ c.queue.monitor_intervals ≠ [] ∧
    (currentMI c.queue).rtt_on_monitor_start_us ≠ 0 ∧
    rtt > truncQ ((1 + FLAGS_max_rtt_fluctuation_tolerance_ratio_in_starting) *
      ((currentMI c.queue).rtt_on_monitor_start_us : ℚ))

instance (c : CongestionController) (rtt : ℤ) : Decidable (rttInflationFastPath c rtt) := by
  unfold rttInflationFastPath
  infer_instance

/-- `CongestionController::OnCongestionEvent`, with the queue's
`OnCongestionEvent` inlined so that the delegate callback
(`OnUtilityAvailable`) is applied to the controller between the utility
computation and the drain of the queue — exactly the C++ ordering.  Note the
queue is called with the raw `rtt` argument (`avg_rtt_us` in the C++ is a
plain copy of `rtt`). -/
def CongestionController.OnCongestionEvent (rpow09 : ℚ → ℚ)
    (c : CongestionController) (event_time rtt : ℤ)
    (acked_packets lost_packets : List CongestionEvent) : CongestionController :=
  let c1 :=
    if rtt ≠ 0 then
      { c with avg_rtt :=
          if c.avg_rtt = 0 then rtt
          else truncQ (((c.avg_rtt : ℚ) * 3 + (rtt : ℚ)) / 4) }
    else c
  if rttInflationFastPath c1 rtt then
    CongestionController.EnterProbing
      { c1 with queue := c1.queue.OnRttInflationInStarting }
  else
    let q := c1.queue
    if q.num_useful_intervals = 0 then
      { c1 with queue := { q with num_available_intervals := 0 } }
    else
      let r := processIntervals rpow09 acked_packets lost_packets rtt event_time
        q.monitor_intervals
      if q.num_useful_intervals > r.2.1 ∧ r.2.2 = false then
        { c1 with queue := { q with monitor_intervals := r.1, num_available_intervals := r.2.1 } }
      else
        let qPre : MonitorIntervalQueue :=
          { q with monitor_intervals := r.1, num_available_intervals := r.2.1 }
        let c2 :=
          if r.2.2 = false then
            CongestionController.OnUtilityAvailable { c1 with queue := qPre }
              (utilityBatch r.1)
          else
            { c1 with queue := qPre }
        let d := drainIntervals c2.queue.monitor_intervals c2.queue.num_useful_intervals
        { c2 with queue :=
            { monitor_intervals := d.1, num_useful_intervals := d.2,
              num_available_intervals := 0 } }

/-- One call of the public API (`OnPacketSent` or `OnCongestionEvent`). -/
inductive ApiCall
  | packetSent (sent_time packet_number bytes : ℤ) (randIncrease : Bool)
  | congestionEvent (event_time rtt : ℤ) (acked_packets lost_packets : List CongestionEvent)

/-- One step of the controller under a public API call. -/
def CongestionController.step (rpow09 : ℚ → ℚ) (c : CongestionController) :
    ApiCall → CongestionController
  | ApiCall.packetSent t p b r => c.OnPacketSent t p b r
  | ApiCall.congestionEvent t rtt a l =>
    CongestionController.OnCongestionEvent rpow09 c t rtt a l

/-! ## Spec-side definitions and predicates used by the claims -/

/-- The mode-transition graph of the spec (claim C7):
STARTING → `{STARTING, PROBING}`, PROBING → `{PROBING, DECISION_MADE}`,
DECISION_MADE → `{DECISION_MADE, PROBING}`. -/
def ModeGraph : SenderMode → SenderMode → Prop
  | STARTING, m => m = STARTING ∨ m = PROBING
  | PROBING, m => m = PROBING ∨ m = DECISION_MADE
  | DECISION_MADE, m => m = DECISION_MADE ∨ m = PROBING

/-- The utility value as worded by claim C5 / spec §4.2:
`utility = sending_factor − (loss_contribution + rtt_contribution) ·
(sending_rate_bps / 2²⁰) / n_packets`, with
`loss_contribution = n_packets · (c · ((1 + loss_rate) − 1))` where `c = 1`
if `loss_rate ≤ 0.03` else `c = 11.35`,
`rtt_contribution = 11330 · bytes_sent · rtt_penalty`, and `rtt_penalty` the
two-stage integer truncation
`int(int(latency_inflation·100) / 100.0 · 100) / 2 · 2 / 100.0` of the
latency inflation computed from the two half-sums of `packet_rtt_samples`. -/
def specUtilityValue (rpow09 : ℚ → ℚ) (mi : MonitorInterval) : ℚ :=
  let mi_duration : ℤ := max 1 (mi.last_packet_sent_time - mi.first_packet_sent_time)
  let sending_rate_bps : ℚ := (mi.bytes_sent : ℚ) * 8 / ((mi_duration : ℚ) / 1000000)
  let sending_factor : ℚ := rpow09 (sending_rate_bps / 2 ^ 20)
  let half_samples : ℕ := mi.packet_rtt_samples.length / 2
  let sum_first : ℚ := sumRttQ (mi.packet_rtt_samples.take half_samples)
  let sum_second : ℚ := sumRttQ ((mi.packet_rtt_samples.drop half_samples).take half_samples)
  let latency_inflation : ℚ := 2 * (sum_second - sum_first) / (sum_first + sum_second)
  let rtt_penalty : ℚ :=
    (((truncQ ((truncQ (latency_inflation * 100) : ℚ) / 100 * 100)).tdiv 2 * 2 : ℤ) : ℚ) / 100
  let rtt_contribution : ℚ := 11330 * (mi.bytes_sent : ℚ) * rtt_penalty
  let loss_rate : ℚ := (mi.bytes_lost : ℚ) / (mi.bytes_sent : ℚ)
  let loss_coefficient : ℚ := if loss_rate ≤ 3 / 100 then 1 else 1135 / 100
  let loss_contribution : ℚ := (mi.n_packets : ℚ) * (loss_coefficient * ((1 + loss_rate) - 1))
  sending_factor -
    (loss_contribution + rtt_contribution) * (sending_rate_bps / 2 ^ 20) / (mi.n_packets : ℚ)

/-- Number of useful intervals actually resident in a deque. -/
def countUseful (l : List MonitorInterval) : ℕ :=
  l.countP (fun mi => mi.is_useful)

/-- A useful interval that completes at this congestion event with invalid
utility: it was not yet utility-available, attribution makes it available,
and its last and first packet sent times coincide. -/
def becomesInvalid (acked_packets lost_packets : List CongestionEvent)
    (rtt_us event_time : ℤ) (mi : MonitorInterval) : Prop :=
  mi.is_useful = true ∧
  IsUtilityAvailable mi event_time = false ∧
  IsUtilityAvailable (attributeInterval acked_packets lost_packets rtt_us mi) event_time = true ∧
  mi.last_packet_sent_time = mi.first_packet_sent_time

instance (acked_packets lost_packets : List CongestionEvent) (rtt_us event_time : ℤ)
    (mi : MonitorInterval) :
    Decidable (becomesInvalid acked_packets lost_packets rtt_us event_time mi) := by
  unfold becomesInvalid
  infer_instance

/-- An interval is (or becomes, after this event's attribution)
utility-available at the event. -/
def availAtEvent (acked_packets lost_packets : List CongestionEvent)
    (rtt_us event_time : ℤ) (mi : MonitorInterval) : Bool :=
  IsUtilityAvailable mi event_time ||
  IsUtilityAvailable (attributeInterval acked_packets lost_packets rtt_us mi) event_time

/-- Bytes of the lost vector attributed to an interval's packet range. -/
def lostAttributed (lost_packets : List CongestionEvent) (mi : MonitorInterval) : ℤ :=
  (lost_packets.map (fun lp =>
    if IntervalContainsPacket mi lp.packet_number then lp.bytes_lost else 0)).sum

/-- Bytes of the acked vector attributed to an interval's packet range. -/
def ackedAttributed (acked_packets : List CongestionEvent) (mi : MonitorInterval) : ℤ :=
  (acked_packets.map (fun ap =>
    if IntervalContainsPacket mi ap.packet_number then ap.bytes_acked else 0)).sum

/-- The rtt samples appended to an interval by one congestion event. -/
def newRttSamples (acked_packets : List CongestionEvent) (mi : MonitorInterval)
    (rtt_us : ℤ) : List PacketRttSample :=
  (acked_packets.filter (fun ap => IntervalContainsPacket mi ap.packet_number)).map
    (fun ap => { packet_number := ap.packet_number, sample_rtt := rtt_us })

/-- The per-interval byte accounting invariant of claim C8. -/
def intervalBytesInvariant (mi : MonitorInterval) : Prop :=
  mi.bytes_acked + mi.bytes_lost ≤ mi.bytes_sent

instance (mi : MonitorInterval) : Decidable (intervalBytesInvariant mi) := by
  unfold intervalBytesInvariant
  infer_instance

/-- The queue-wide byte accounting invariant of claim C8. -/
def queueBytesInvariant (q : MonitorIntervalQueue) : Prop :=
  ∀ mi ∈ q.monitor_intervals, intervalBytesInvariant mi

instance (q : MonitorIntervalQueue) : Decidable (queueBytesInvariant q) := by
  unfold queueBytesInvariant
  infer_instance

/-- How a post-event interval relates to its pre-event original: untouched,
attributed, attributed with `rtt_on_monitor_end_us` stamped, or additionally
with its utility written. -/
def derivedFrom (acked_packets lost_packets : List CongestionEvent) (rtt_us : ℤ)
    (mi mi' : MonitorInterval) : Prop :=
  mi' = mi ∨
  mi' = attributeInterval acked_packets lost_packets rtt_us mi ∨
  mi' = { attributeInterval acked_packets lost_packets rtt_us mi with
          rtt_on_monitor_end_us := rtt_us } ∨
  ∃ u, mi' = { attributeInterval acked_packets lost_packets rtt_us mi with
               rtt_on_monitor_end_us := rtt_us, utility := u }

/-! ## Concrete states used by counterexamples and witnesses -/

/-- A controller in STARTING mode at 3 Mbit/s with latest utility 100
(everything else at its initial value). -/
def ceStartingController : CongestionController :=
  { sending_rate := 3000000
    latest_utility_info := { sending_rate := 3000000, utility := 100 } }

/-- A controller with the initial gradient/amplifier state at 10 · 2²⁰ bit/s. -/
def ceFreshController : CongestionController :=
  { sending_rate := 10485760 }

/-- A useful single-packet interval (100 bytes on packet 1, sent at time 5)
whose monitor window has closed. -/
def ceSinglePacketInterval : MonitorInterval :=
  { sending_rate := 2000000
    is_useful := true
    end_time := 8
    first_packet_sent_time := 5
    last_packet_sent_time := 5
    first_packet_number := 1
    last_packet_number := 1
    bytes_sent := 100
    n_packets := 1 }

/-- A useful two-packet interval (100 bytes each on packets 1 and 2, sent at
times 0 and 10) whose monitor window has closed. -/
def ceTwoPacketInterval : MonitorInterval :=
  { sending_rate := 2000000
    is_useful := true
    end_time := 8
    first_packet_sent_time := 0
    last_packet_sent_time := 10
    first_packet_number := 1
    last_packet_number := 2
    bytes_sent := 200
    n_packets := 2 }

/-- Total bytes one congestion event attributes to an interval. -/
def attributedBytes (acked_packets lost_packets : List CongestionEvent)
    (mi : MonitorInterval) : ℤ :=
  ackedAttributed acked_packets mi + lostAttributed lost_packets mi

/-- A controller in PROBING mode at 10 · 2²⁰ bit/s (fresh gradient state). -/
def ceProbingController : CongestionController :=
  { mode := PROBING, sending_rate := 10485760 }

/-- A STARTING controller holding one non-useful interval whose
`rtt_on_monitor_start_us` is 100. -/
def ceInflationController : CongestionController :=
  { sending_rate := 0
    queue := { monitor_intervals := [MonitorInterval.mkNew 0 false 0 100 0] } }

/-- A four-sample PROBING batch whose two groups agree on INCREASE. -/
def ceDecisionBatch : List UtilityInfo :=
  [{ sending_rate := 2, utility := 2 }, { sending_rate := 1, utility := 1 },
   { sending_rate := 2, utility := 2 }, { sending_rate := 1, utility := 1 }]

/-- A useful interval with a long monitor window (100 bytes sent as packet 1);
used to show duplicate acks over-count. -/
def ceOpenInterval : MonitorInterval :=
  { sending_rate := 2000000
    is_useful := true
    end_time := 100
    first_packet_sent_time := 0
    last_packet_sent_time := 5
    first_packet_number := 1
    last_packet_number := 1
    bytes_sent := 100
    n_packets := 1 }

/-- A queue holding only `ceOpenInterval`. -/
def ceOpenQueue : MonitorIntervalQueue :=
  { monitor_intervals := [ceOpenInterval], num_useful_intervals := 1 }

/-- A queue holding only `ceSinglePacketInterval`. -/
def ceSinglePacketQueue : MonitorIntervalQueue :=
  { monitor_intervals := [ceSinglePacketInterval], num_useful_intervals := 1 }

/-- A queue holding only `ceTwoPacketInterval`. -/
def ceTwoPacketQueue : MonitorIntervalQueue :=
  { monitor_intervals := [ceTwoPacketInterval], num_useful_intervals := 1 }

/-- A controller holding `ceSinglePacketQueue`. -/
def ceInvalidUtilityController : CongestionController :=
  { sending_rate := 5000000
    queue := ceSinglePacketQueue }

/-! ## Helper lemmas -/

theorem EnterProbing_mode (c : CongestionController) : c.EnterProbing.mode = PROBING := by
  cases c with
  | mk mode sr lui md dir rnd q ag gs ir ar sb ra rp pc =>
    cases mode <;> simp [CongestionController.EnterProbing] <;> split_ifs <;> simp_all

theorem EnterProbing_from_starting (c : CongestionController) (h : c.mode = STARTING) :
    c.EnterProbing =
      { c with mode := PROBING, rounds := 1, sending_rate := c.sending_rate * (1 / 2 : ℚ) } := by
  cases c with
  | mk mode sr lui md dir rnd q ag gs ir ar sb ra rp pc =>
    subst h
    simp [CongestionController.EnterProbing]

/-! ## Claim C9 -/

/-- C9: after constructing the controller with `initial_rtt_us = 10000`,
`initial_congestion_window = 10`, `max_congestion_window = 100`,
`PacingRate()` returns `11200000` bits/s and `GetCongestionWindow()` returns
`112000` bytes. -/
theorem claimC9_theorem :
    (CongestionController.init 10000 10 100).PacingRate = 11200000 ∧
    (CongestionController.init 10000 10 100).GetCongestionWindow = 112000 := by
  constructor
  · norm_num [CongestionController.init, CongestionController.PacingRate,
      kDefaultTCPMSS, kBitsPerByte]
  · norm_num [CongestionController.init, CongestionController.GetCongestionWindow,
      kDefaultTCPMSS, kBitsPerByte, truncQ]

theorem modeGraph_refl (m : SenderMode) : ModeGraph m m := by
  cases m <;> simp [ModeGraph]

theorem MaybeSetSendingRate_mode (c : CongestionController) (r : Bool) :
    (c.MaybeSetSendingRate r).mode = c.mode := by
  unfold CongestionController.MaybeSetSendingRate
  split_ifs <;> rfl

theorem OnPacketSent_mode (c : CongestionController) (t p b : ℤ) (r : Bool) :
    (c.OnPacketSent t p b r).mode = c.mode := by
  unfold CongestionController.OnPacketSent
  split_ifs <;> simp [MaybeSetSendingRate_mode]

theorem UpdateAverageGradient_fields (c : CongestionController) (g : ℚ) :
    (c.UpdateAverageGradient g).mode = c.mode ∧
    (c.UpdateAverageGradient g).sending_rate = c.sending_rate ∧
    (c.UpdateAverageGradient g).previous_change = c.previous_change ∧
    (c.UpdateAverageGradient g).latest_utility_info = c.latest_utility_info ∧
    (c.UpdateAverageGradient g).rounds = c.rounds ∧
    (c.UpdateAverageGradient g).queue = c.queue ∧
    (c.UpdateAverageGradient g).direction = c.direction :=
  ⟨rfl, rfl, rfl, rfl, rfl, rfl, rfl⟩

theorem signFlipReset_fields (c : CongestionController) (x : ℚ) :
    (signFlipReset c x).mode = c.mode ∧
    (signFlipReset c x).sending_rate = c.sending_rate ∧
    (signFlipReset c x).previous_change = c.previous_change ∧
    (signFlipReset c x).latest_utility_info = c.latest_utility_info ∧
    (signFlipReset c x).rounds = c.rounds ∧
    (signFlipReset c x).queue = c.queue ∧
    (signFlipReset c x).direction = c.direction := by
  simp only [signFlipReset]
  split_ifs <;> exact ⟨rfl, rfl, rfl, rfl, rfl, rfl, rfl⟩

theorem sameSignBump_fields (c : CongestionController) (x : ℚ) :
    (sameSignBump c x).mode = c.mode ∧
    (sameSignBump c x).sending_rate = c.sending_rate ∧
    (sameSignBump c x).previous_change = c.previous_change ∧
    (sameSignBump c x).latest_utility_info = c.latest_utility_info ∧
    (sameSignBump c x).rounds = c.rounds ∧
    (sameSignBump c x).queue = c.queue ∧
    (sameSignBump c x).direction = c.direction := by
  simp only [sameSignBump]
  split_ifs <;> exact ⟨rfl, rfl, rfl, rfl, rfl, rfl, rfl⟩

theorem capProposedChange_fields (c : CongestionController) (x : ℚ) :
    (capProposedChange c x).2.mode = c.mode ∧
    (capProposedChange c x).2.sending_rate = c.sending_rate ∧
    (capProposedChange c x).2.previous_change = c.previous_change ∧
    (capProposedChange c x).2.latest_utility_info = c.latest_utility_info ∧
    (capProposedChange c x).2.rounds = c.rounds ∧
    (capProposedChange c x).2.queue = c.queue ∧
    (capProposedChange c x).2.direction = c.direction := by
  simp only [capProposedChange]
  split_ifs <;> exact ⟨rfl, rfl, rfl, rfl, rfl, rfl, rfl⟩

theorem secondSignFlipReset_fields (c : CongestionController) (x : ℚ) :
    (secondSignFlipReset c x).mode = c.mode ∧
    (secondSignFlipReset c x).sending_rate = c.sending_rate ∧
    (secondSignFlipReset c x).previous_change = c.previous_change ∧
    (secondSignFlipReset c x).latest_utility_info = c.latest_utility_info ∧
    (secondSignFlipReset c x).rounds = c.rounds ∧
    (secondSignFlipReset c x).queue = c.queue ∧
    (secondSignFlipReset c x).direction = c.direction := by
  simp only [secondSignFlipReset]
  split_ifs <;> exact ⟨rfl, rfl, rfl, rfl, rfl, rfl, rfl⟩

theorem ComputeRateChange_mode (c : CongestionController) (s1 s2 : UtilityInfo) :
    (c.ComputeRateChange s1 s2).2.mode = c.mode := by
  simp only [CongestionController.ComputeRateChange]
  split_ifs with h
  · rfl
  · simp only [(secondSignFlipReset_fields _ _).1, (capProposedChange_fields _ _).1,
      (sameSignBump_fields _ _).1, (signFlipReset_fields _ _).1,
      (UpdateAverageGradient_fields _ _).1]

theorem ComputeRateChange_sending_rate (c : CongestionController) (s1 s2 : UtilityInfo) :
    (c.ComputeRateChange s1 s2).2.sending_rate = c.sending_rate := by
  simp only [CongestionController.ComputeRateChange]
  split_ifs with h
  · rfl
  · simp only [(secondSignFlipReset_fields _ _).2.1, (capProposedChange_fields _ _).2.1,
      (sameSignBump_fields _ _).2.1, (signFlipReset_fields _ _).2.1,
      (UpdateAverageGradient_fields _ _).2.1]

theorem ComputeRateChange_previous_change (c : CongestionController) (s1 s2 : UtilityInfo) :
    (c.ComputeRateChange s1 s2).2.previous_change = c.previous_change := by
  simp only [CongestionController.ComputeRateChange]
  split_ifs with h
  · rfl
  · simp only [(secondSignFlipReset_fields _ _).2.2.1, (capProposedChange_fields _ _).2.2.1,
      (sameSignBump_fields _ _).2.2.1, (signFlipReset_fields _ _).2.2.1,
      (UpdateAverageGradient_fields _ _).2.2.1]

theorem ComputeRateChange_queue (c : CongestionController) (s1 s2 : UtilityInfo) :
    (c.ComputeRateChange s1 s2).2.queue = c.queue := by
  simp only [CongestionController.ComputeRateChange]
  split_ifs with h
  · rfl
  · simp only [(secondSignFlipReset_fields _ _).2.2.2.2.2.1,
      (capProposedChange_fields _ _).2.2.2.2.2.1,
      (sameSignBump_fields _ _).2.2.2.2.2.1, (signFlipReset_fields _ _).2.2.2.2.2.1,
      (UpdateAverageGradient_fields _ _).2.2.2.2.2.1]

theorem OnUtilityAvailable_modeGraph (c : CongestionController)
    (batch : List UtilityInfo) :
    ModeGraph c.mode ((c.OnUtilityAvailable batch).mode) := by
  rcases hmode : c.mode
  all_goals simp only [CongestionController.OnUtilityAvailable, hmode, ModeGraph]
  all_goals split_ifs
  all_goals first
    | (left; rfl)
    | (right; rfl)
    | (left; exact EnterProbing_mode _)
    | (right; exact EnterProbing_mode _)
    | (left; simp only [ComputeRateChange_mode, hmode])

theorem OnUtilityAvailable_modeGraph' (c c' : CongestionController)
    (batch : List UtilityInfo) (h : c'.mode = c.mode) :
    ModeGraph c.mode ((c'.OnUtilityAvailable batch).mode) :=
  h ▸ OnUtilityAvailable_modeGraph c' batch

theorem OnCongestionEvent_modeGraph (rpow09 : ℚ → ℚ) (c : CongestionController)
    (t rtt : ℤ) (acked lost : List CongestionEvent) :
    ModeGraph c.mode ((CongestionController.OnCongestionEvent rpow09 c t rtt acked lost).mode) := by
  simp only [CongestionController.OnCongestionEvent]
  split_ifs
  all_goals first
    | (exact modeGraph_refl _)
    | (exact OnUtilityAvailable_modeGraph' c _ _ rfl)
    | (rw [EnterProbing_mode]; rename_i hfp;
       rw [show c.mode = STARTING from hfp.2.1]; exact Or.inr rfl)

/-! ## Claim C7 -/

/-- The fast-path guard only reads `mode_`, the queue and the raw `rtt`. -/
theorem rttInflationFastPath_avg (c : CongestionController) (v rtt : ℤ) :
    rttInflationFastPath { c with avg_rtt := v } rtt ↔ rttInflationFastPath c rtt :=
  Iff.rfl

/-- C7: under every API call (`OnPacketSent`, `OnCongestionEvent`, and the
`OnUtilityAvailable` steps the latter triggers), the controller's mode moves
only along STARTING → `{STARTING, PROBING}`, PROBING → `{PROBING,
DECISION_MADE}`, DECISION_MADE → `{DECISION_MADE, PROBING}`; and the
RTT-inflation fast path fires only in STARTING and moves the mode to
PROBING. -/
theorem claimC7_theorem :
    (∀ (rpow09 : ℚ → ℚ) (c : CongestionController) (call : ApiCall),
      ModeGraph c.mode ((CongestionController.step rpow09 c call).mode)) ∧
    (∀ (c : CongestionController) (batch : List UtilityInfo),
      ModeGraph c.mode ((c.OnUtilityAvailable batch).mode)) ∧
    (∀ (rpow09 : ℚ → ℚ) (c : CongestionController) (event_time rtt : ℤ)
      (acked lost : List CongestionEvent), rttInflationFastPath c rtt →
      c.mode = STARTING ∧
      (CongestionController.OnCongestionEvent rpow09 c event_time rtt acked lost).mode =
        PROBING) := by
  refine ⟨?_, OnUtilityAvailable_modeGraph, ?_⟩
  · intro rpow09 c call
    cases call with
    | packetSent t p b r =>
      rw [CongestionController.step, OnPacketSent_mode]
      exact modeGraph_refl _
    | congestionEvent t rtt a l =>
      exact OnCongestionEvent_modeGraph rpow09 c t rtt a l
  · intro rpow09 c event_time rtt acked lost hfp
    refine ⟨hfp.2.1, ?_⟩
    simp only [CongestionController.OnCongestionEvent]
    rw [if_pos hfp.1, if_pos ((rttInflationFastPath_avg c _ rtt).mpr hfp)]
    exact EnterProbing_mode _

/-- Witness for C7 at a concrete fast-path input. -/
theorem claimC7_witness :
    rttInflationFastPath ceInflationController 200 ∧
    (CongestionController.OnCongestionEvent (fun q => q) ceInflationController
        0 200 [] []).mode = PROBING := by
  have h : rttInflationFastPath ceInflationController 200 := by
    norm_num [rttInflationFastPath, ceInflationController, currentMI,
      MonitorInterval.mkNew, truncQ, FLAGS_max_rtt_fluctuation_tolerance_ratio_in_starting]
  exact ⟨h, (claimC7_theorem.2.2 (fun q => q) ceInflationController 0 200 [] [] h).2⟩

/-! ## Claim C6 -/

/-- C6: in STARTING mode, a batch whose head utility beats
`latest_utility_info` doubles the rate, stores the head as latest, bumps
`rounds` and stays in STARTING; otherwise the controller halves the rate,
enters PROBING and resets `rounds` to 1. -/
theorem claimC6_theorem (c : CongestionController) (u : UtilityInfo)
    (rest : List UtilityInfo) (hmode : c.mode = STARTING) :
    (u.utility > c.latest_utility_info.utility →
      c.OnUtilityAvailable (u :: rest) =
        { c with
          sending_rate := c.sending_rate * 2
          latest_utility_info := u
          rounds := c.rounds + 1 }) ∧
    (¬ u.utility > c.latest_utility_info.utility →
      (c.OnUtilityAvailable (u :: rest)).mode = PROBING ∧
      (c.OnUtilityAvailable (u :: rest)).sending_rate = c.sending_rate * (1 / 2 : ℚ) ∧
      (c.OnUtilityAvailable (u :: rest)).rounds = 1) := by
  simp only [CongestionController.OnUtilityAvailable, hmode, List.getD_cons_zero]
  constructor
  · intro h
    rw [if_pos h]
  · intro h
    rw [if_neg h, EnterProbing_from_starting c hmode]
    exact ⟨rfl, rfl, rfl⟩

/-- Witness for C6: a STARTING controller at 3 Mbit/s with latest utility 100
receiving utility 150 doubles to 6 Mbit/s. -/
theorem claimC6_witness :
    ceStartingController.mode = STARTING ∧
    ((150 : ℚ) > ceStartingController.latest_utility_info.utility) ∧
    ceStartingController.OnUtilityAvailable
        [{ sending_rate := 6000000, utility := 150 }] =
      { ceStartingController with
        sending_rate := ceStartingController.sending_rate * 2
        latest_utility_info := { sending_rate := 6000000, utility := 150 }
        rounds := ceStartingController.rounds + 1 } := by
  refine ⟨rfl, by norm_num [ceStartingController], ?_⟩
  exact (claimC6_theorem ceStartingController _ [] rfl).1 (by norm_num [ceStartingController])

/-! ## Claim C1 -/

theorem EnterDecisionMade_fields (c : CongestionController) (r : ℚ) :
    (c.EnterDecisionMade r).sending_rate = r ∧ (c.EnterDecisionMade r).mode = DECISION_MADE :=
  ⟨rfl, rfl⟩

theorem dmStay_sending_rate (c : CongestionController) (rc : ℚ) (u : UtilityInfo) :
    ({ c with
        previous_change := rc
        sending_rate := c.sending_rate + rc
        latest_utility_info := u } : CongestionController).sending_rate =
      c.sending_rate + rc := rfl

/-- C1 as stated is false: a STARTING controller at 3 Mbit/s whose utility
drops halves to 1.5 Mbit/s, below `kMinSendingRate` = 2 · 2²⁰ bit/s, because
`EnterProbing` applies no minimum-rate clamp. -/
theorem claimC1_counterexample :
    (ceStartingController.OnUtilityAvailable
        [{ sending_rate := 3000000, utility := 80 }]).sending_rate < kMinSendingRate := by
  have h := (claimC6_theorem ceStartingController
      { sending_rate := 3000000, utility := 80 } [] rfl).2
      (by norm_num [ceStartingController])
  rw [h.2.1]
  norm_num [ceStartingController, kMinSendingRate, kMegabit]

/-- C1 amended: the minimum-sending-rate clamp applies exactly on the paths
that end in DECISION_MADE; after any `OnUtilityAvailable` step whose
resulting mode is DECISION_MADE, `sending_rate ≥ kMinSendingRate`.  The
STARTING paths and the paths through `EnterProbing` do not enforce the
minimum. -/
theorem claimC1_theorem (c : CongestionController) (batch : List UtilityInfo)
    (h : (c.OnUtilityAvailable batch).mode = DECISION_MADE) :
    kMinSendingRate ≤ (c.OnUtilityAvailable batch).sending_rate := by
  rcases hmode : c.mode
  all_goals simp only [CongestionController.OnUtilityAvailable, hmode] at h ⊢
  all_goals split_ifs at h ⊢
  all_goals first
    | (rw [(EnterDecisionMade_fields _ _).1]; linarith)
    | (rw [dmStay_sending_rate]; linarith)
    | (rw [EnterProbing_mode] at h; simp at h)

/-- Witness for C1 (amended): a PROBING controller at 10 · 2²⁰ bit/s with an
agreeing 4-sample batch enters DECISION_MADE with rate ≥ `kMinSendingRate`. -/
theorem claimC1_witness :
    (ceProbingController.OnUtilityAvailable ceDecisionBatch).mode = DECISION_MADE ∧
    kMinSendingRate ≤ (ceProbingController.OnUtilityAvailable ceDecisionBatch).sending_rate := by
  have h : (ceProbingController.OnUtilityAvailable ceDecisionBatch).mode = DECISION_MADE := by
    norm_num [ceProbingController, ceDecisionBatch, CongestionController.OnUtilityAvailable,
      CanMakeDecision, CongestionController.ComputeRateChange,
      CongestionController.UpdateAverageGradient, updateAverageGradientPair,
      signFlipReset, sameSignBump, capProposedChange, secondSignFlipReset, rateChangeFloor,
      amplifierFactor, CongestionController.EnterDecisionMade, kMegabit,
      kUtilityGradientToRateChangeFactor, kMinimumRateChange, kMinSendingRate,
      kInitialMaximumProportionalChange, kMaximumProportionalChangeStepSize,
      kNumIntervalGroupsInProbing, kAvgGradientSampleSize, List.getD]
  exact ⟨h, claimC1_theorem _ _ h⟩

/-! ## Claim C2 -/

/-- C2 as stated is false: two samples with different rates but equal
utilities give a zero gradient, the proposed change stays 0, and the final
flooring returns 0, whose absolute value is below `kMinimumRateChange`. -/
theorem claimC2_counterexample :
    (ceFreshController.ComputeRateChange
        { sending_rate := 2, utility := 5 } { sending_rate := 1, utility := 5 }).1 = 0 ∧
    |(ceFreshController.ComputeRateChange
        { sending_rate := 2, utility := 5 } { sending_rate := 1, utility := 5 }).1| <
      kMinimumRateChange := by
  have h : (ceFreshController.ComputeRateChange
      { sending_rate := 2, utility := 5 } { sending_rate := 1, utility := 5 }).1 = 0 := by
    norm_num [ceFreshController, CongestionController.ComputeRateChange,
      CongestionController.UpdateAverageGradient, updateAverageGradientPair,
      signFlipReset, sameSignBump, capProposedChange, secondSignFlipReset, rateChangeFloor,
      amplifierFactor, kMegabit, kUtilityGradientToRateChangeFactor, kMinimumRateChange,
      kInitialMaximumProportionalChange, kMaximumProportionalChangeStepSize,
      kAvgGradientSampleSize]
  refine ⟨h, ?_⟩
  rw [h]
  norm_num [kMinimumRateChange]

theorem amplifierFactor_pos (a : ℚ) (h : 0 ≤ a) : 0 < amplifierFactor a := by
  unfold amplifierFactor
  split_ifs <;> linarith

theorem rateChangeFloor_spec (x : ℚ) (hx : x ≠ 0) :
    kMinimumRateChange ≤ |rateChangeFloor x| ∧ (0 < rateChangeFloor x ↔ 0 < x) := by
  have hk : (0 : ℚ) < kMinimumRateChange := by norm_num [kMinimumRateChange]
  unfold rateChangeFloor
  split_ifs with h1 h2
  · refine ⟨?_, ?_⟩
    · rw [abs_of_nonpos (by linarith)]
      linarith
    · constructor
      · intro hc; linarith
      · intro hc; linarith [h1.1]
  · refine ⟨?_, ?_⟩
    · rw [abs_of_pos hk]
    · constructor
      · intro _; exact h2.1
      · intro _; exact hk
  · push_neg at h1 h2
    refine ⟨?_, Iff.rfl⟩
    rcases lt_trichotomy x 0 with h | h | h
    · rw [abs_of_neg h]
      have := h1 h
      linarith
    · exact absurd h hx
    · rw [abs_of_pos h]
      have := h2 h
      linarith

theorem signFlipReset_amp (c : CongestionController) (x : ℚ)
    (h : 0 ≤ c.rate_change_amplifier) : 0 ≤ (signFlipReset c x).rate_change_amplifier := by
  unfold signFlipReset
  split_ifs <;> first
    | exact h
    | norm_num

theorem updateAvg_coherent (c : CongestionController) (g : ℚ)
    (hw : c.gradient_samples = [] ∨ c.gradient_samples = [c.avg_gradient]) :
    (c.UpdateAverageGradient g).avg_gradient = g := by
  rcases hw with h | h <;>
    simp [CongestionController.UpdateAverageGradient, updateAverageGradientPair, h,
      kAvgGradientSampleSize]

theorem pos_of_div_gt (s x m : ℚ) (hs : 0 ≤ s) (hm : 0 < m) (h : x / s > m) : 0 < s := by
  rcases hs.lt_or_eq with h' | h'
  · exact h'
  · rw [← h', div_zero] at h
    linarith

theorem pos_of_negdiv_gt (s x m : ℚ) (hs : 0 ≤ s) (hm : 0 < m) (h : -1 * (x / s) > m) :
    0 < s := by
  rcases hs.lt_or_eq with h' | h'
  · exact h'
  · rw [← h', div_zero] at h
    norm_num at h
    linarith

theorem capProposedChange_sign (c : CongestionController) (x : ℚ)
    (hs : 0 ≤ c.sending_rate) (hx : x ≠ 0) :
    (capProposedChange c x).1 ≠ 0 ∧ ((0 : ℚ) < (capProposedChange c x).1 ↔ 0 < x) := by
  have hallow : (0 : ℚ) ≤ (c.rate_change_proportion_allowance : ℚ) := Nat.cast_nonneg _
  have hmax : (0 : ℚ) < kInitialMaximumProportionalChange +
      (c.rate_change_proportion_allowance : ℚ) * kMaximumProportionalChangeStepSize := by
    norm_num [kInitialMaximumProportionalChange, kMaximumProportionalChangeStepSize]
    linarith
  simp only [capProposedChange]
  split_ifs
  all_goals dsimp only
  all_goals first
    | exact ⟨hx, Iff.rfl⟩
    | (have hs' : 0 < c.sending_rate := by
         first
           | exact pos_of_div_gt c.sending_rate x _ hs hmax (by assumption)
           | exact pos_of_negdiv_gt c.sending_rate x _ hs hmax (by assumption)
       have hprod : 0 < (kInitialMaximumProportionalChange +
           (c.rate_change_proportion_allowance : ℚ) * kMaximumProportionalChangeStepSize) *
           c.sending_rate := mul_pos hmax hs'
       exact ⟨by intro hc; linarith, by intro hc; linarith, by intro hc; linarith⟩)
    | (have hs' : 0 < c.sending_rate := by
         first
           | exact pos_of_div_gt c.sending_rate x _ hs hmax (by assumption)
           | exact pos_of_negdiv_gt c.sending_rate x _ hs hmax (by assumption)
       have hprod : 0 < (kInitialMaximumProportionalChange +
           (c.rate_change_proportion_allowance : ℚ) * kMaximumProportionalChangeStepSize) *
           c.sending_rate := mul_pos hmax hs'
       have hxpos : 0 < x := by
         rcases hx.lt_or_lt with hlt | hlt
         · exfalso; linarith
         · exact hlt
       exact ⟨by intro hc; linarith, fun _ => hxpos, fun _ => hprod⟩)

theorem mul_pos_iff_right (a K : ℚ) (hK : 0 < K) : 0 < a * K ↔ 0 < a := by
  constructor
  · intro h
    by_contra hn
    push_neg at hn
    nlinarith
  · intro h
    exact mul_pos h hK

/-- C2 amended: if the rates coincide `ComputeRateChange` returns exactly
`+kMinimumRateChange`; otherwise, for a controller state satisfying the
controller's own invariants (amplifier ≥ 0, sending_rate ≥ 0, gradient
window of size ≤ 1 consistent with `avg_gradient`), whenever the two
utilities also differ the returned value has absolute value at least
`kMinimumRateChange` and its sign is the sign of the utility gradient (the
flooring step preserves the sign); with equal utilities the computed change
is 0 and 0 is returned (see the counterexample). -/
theorem claimC2_theorem (c : CongestionController) (s1 s2 : UtilityInfo)
    (hamp : 0 ≤ c.rate_change_amplifier) (hrate : 0 ≤ c.sending_rate)
    (hw : c.gradient_samples = [] ∨ c.gradient_samples = [c.avg_gradient]) :
    (s1.sending_rate = s2.sending_rate →
      (c.ComputeRateChange s1 s2).1 = kMinimumRateChange ∧ (0 : ℚ) < kMinimumRateChange) ∧
    (s1.sending_rate ≠ s2.sending_rate → s1.utility ≠ s2.utility →
      kMinimumRateChange ≤ |(c.ComputeRateChange s1 s2).1| ∧
      (0 < (c.ComputeRateChange s1 s2).1 ↔
        0 < (s1.utility - s2.utility) / (s1.sending_rate - s2.sending_rate))) := by
  constructor
  · intro he
    refine ⟨?_, by norm_num [kMinimumRateChange]⟩
    simp [CongestionController.ComputeRateChange, he]
  · intro hne hu
    simp only [CongestionController.ComputeRateChange, if_neg hne]
    set d := (s1.utility - s2.utility) / (s1.sending_rate - s2.sending_rate) with hd
    set A := CongestionController.UpdateAverageGradient c
      (kMegabit * (s1.utility - s2.utility) / (s1.sending_rate - s2.sending_rate)) with hA
    set ch0 := A.avg_gradient * kUtilityGradientToRateChangeFactor with hch0def
    set C1 := signFlipReset A ch0 with hC1
    set ch1 := ch0 * amplifierFactor C1.rate_change_amplifier with hch1def
    set C2 := sameSignBump C1 ch1 with hC2
    have hd0 : d ≠ 0 := div_ne_zero (sub_ne_zero.mpr hu) (sub_ne_zero.mpr hne)
    have havg : A.avg_gradient = kMegabit * d := by
      rw [hA, updateAvg_coherent c _ hw, hd]
      ring
    have hkk : (0 : ℚ) < kMegabit * kUtilityGradientToRateChangeFactor := by
      norm_num [kMegabit, kUtilityGradientToRateChangeFactor]
    have hch0 : ch0 = d * (kMegabit * kUtilityGradientToRateChangeFactor) := by
      rw [hch0def, havg]
      ring
    have hch0ne : ch0 ≠ 0 := by
      rw [hch0]
      exact mul_ne_zero hd0 (ne_of_gt hkk)
    have hch0iff : 0 < ch0 ↔ 0 < d := by
      rw [hch0]
      exact mul_pos_iff_right d _ hkk
    have hampA : (0 : ℚ) ≤ A.rate_change_amplifier := hamp
    have hampC1 : (0 : ℚ) ≤ C1.rate_change_amplifier := by
      rw [hC1]
      exact signFlipReset_amp A ch0 hampA
    have hfac : 0 < amplifierFactor C1.rate_change_amplifier := amplifierFactor_pos _ hampC1
    have hch1ne : ch1 ≠ 0 := by
      rw [hch1def]
      exact mul_ne_zero hch0ne (ne_of_gt hfac)
    have hch1iff : 0 < ch1 ↔ 0 < ch0 := by
      rw [hch1def]
      exact mul_pos_iff_right ch0 _ hfac
    have hsC2 : 0 ≤ C2.sending_rate := by
      rw [hC2, (sameSignBump_fields _ _).2.1, (signFlipReset_fields _ _).2.1]
      exact hrate
    have hcap := capProposedChange_sign C2 ch1 hsC2 hch1ne
    have hfloor := rateChangeFloor_spec _ hcap.1
    refine ⟨hfloor.1, ?_⟩
    rw [hfloor.2, hcap.2, hch1iff, hch0iff]

/-- Witness for C2 (amended) at a fresh controller state and samples with
distinct rates and utilities. -/
theorem claimC2_witness :
    (0 : ℚ) ≤ ceFreshController.rate_change_amplifier ∧
    (0 : ℚ) ≤ ceFreshController.sending_rate ∧
    ceFreshController.gradient_samples = [] ∧
    kMinimumRateChange ≤ |(ceFreshController.ComputeRateChange
        { sending_rate := 2, utility := 2 } { sending_rate := 1, utility := 1 }).1| := by
  refine ⟨by norm_num [ceFreshController], by norm_num [ceFreshController], rfl, ?_⟩
  exact ((claimC2_theorem ceFreshController _ _ (by norm_num [ceFreshController])
      (by norm_num [ceFreshController]) (Or.inl rfl)).2
      (by norm_num) (by norm_num)).1

/-! ## Claim C5 -/

/-- C5: `CalculateUtility` reports invalid utility exactly when the
interval's last and first packet sent times coincide; otherwise it writes
exactly the utility described by the spec formula (`specUtilityValue`). -/
theorem claimC5_theorem (rpow09 : ℚ → ℚ) (mi : MonitorInterval) :
    (CalculateUtility rpow09 mi = none ↔
      mi.last_packet_sent_time = mi.first_packet_sent_time) ∧
    (mi.last_packet_sent_time ≠ mi.first_packet_sent_time →
      CalculateUtility rpow09 mi =
        some { mi with utility := specUtilityValue rpow09 mi }) := by
  constructor
  · constructor
    · intro h
      by_contra hne
      simp [CalculateUtility, hne] at h
    · intro h
      simp [CalculateUtility, h]
  · intro hne
    simp only [CalculateUtility, if_neg hne, specUtilityValue]
    simp only [Option.some.injEq, MonitorInterval.mk.injEq, and_true, true_and,
      eq_self_iff_true]
    split_ifs with hloss <;>
      norm_num [kAlpha, kLatencyCoefficient, kMegabit, pow_one]

/-- Witness for C5 at a concrete two-packet interval. -/
theorem claimC5_witness :
    ceTwoPacketInterval.last_packet_sent_time ≠ ceTwoPacketInterval.first_packet_sent_time ∧
    CalculateUtility (fun q => q) ceTwoPacketInterval =
      some { ceTwoPacketInterval with
             utility := specUtilityValue (fun q => q) ceTwoPacketInterval } := by
  refine ⟨by norm_num [ceTwoPacketInterval], ?_⟩
  exact (claimC5_theorem (fun q => q) ceTwoPacketInterval).2
    (by norm_num [ceTwoPacketInterval])

/-! ## Attribution lemmas -/

theorem applyLostPackets_cons (mi : MonitorInterval) (lp : CongestionEvent)
    (rest : List CongestionEvent) :
    applyLostPackets mi (lp :: rest) =
      applyLostPackets (if IntervalContainsPacket mi lp.packet_number then
        { mi with bytes_lost := mi.bytes_lost + lp.bytes_lost } else mi) rest := rfl

theorem applyAckedPackets_cons (mi : MonitorInterval) (ap : CongestionEvent)
    (rest : List CongestionEvent) (rtt_us : ℤ) :
    applyAckedPackets mi (ap :: rest) rtt_us =
      applyAckedPackets (if IntervalContainsPacket mi ap.packet_number then
        { mi with
          bytes_acked := mi.bytes_acked + ap.bytes_acked
          packet_rtt_samples := mi.packet_rtt_samples ++
            [{ packet_number := ap.packet_number, sample_rtt := rtt_us }] }
        else mi) rest rtt_us := rfl

theorem applyLost_eq (lost_packets : List CongestionEvent) (mi : MonitorInterval) :
    applyLostPackets mi lost_packets =
      { mi with bytes_lost := mi.bytes_lost + lostAttributed lost_packets mi } := by
  induction lost_packets generalizing mi with
  | nil => simp [applyLostPackets, lostAttributed]
  | cons lp rest ih =>
    rw [applyLostPackets_cons]
    by_cases hc : IntervalContainsPacket mi lp.packet_number
    · rw [if_pos hc, ih]
      have hsame : lostAttributed rest
          { mi with bytes_lost := mi.bytes_lost + lp.bytes_lost } =
          lostAttributed rest mi := rfl
      rw [hsame]
      simp [lostAttributed, hc, add_assoc]
    · rw [if_neg hc, ih]
      simp [lostAttributed, hc]

theorem applyAcked_eq (acked_packets : List CongestionEvent) (mi : MonitorInterval)
    (rtt_us : ℤ) :
    applyAckedPackets mi acked_packets rtt_us =
      { mi with
        bytes_acked := mi.bytes_acked + ackedAttributed acked_packets mi
        packet_rtt_samples := mi.packet_rtt_samples ++
          newRttSamples acked_packets mi rtt_us } := by
  induction acked_packets generalizing mi with
  | nil => simp [applyAckedPackets, ackedAttributed, newRttSamples]
  | cons ap rest ih =>
    rw [applyAckedPackets_cons]
    by_cases hc : IntervalContainsPacket mi ap.packet_number
    · rw [if_pos hc, ih]
      have hsame : ackedAttributed rest
          { mi with
            bytes_acked := mi.bytes_acked + ap.bytes_acked
            packet_rtt_samples := mi.packet_rtt_samples ++
              [{ packet_number := ap.packet_number, sample_rtt := rtt_us }] } =
          ackedAttributed rest mi := rfl
      have hsame2 : newRttSamples rest
          { mi with
            bytes_acked := mi.bytes_acked + ap.bytes_acked
            packet_rtt_samples := mi.packet_rtt_samples ++
              [{ packet_number := ap.packet_number, sample_rtt := rtt_us }] } rtt_us =
          newRttSamples rest mi rtt_us := rfl
      rw [hsame, hsame2]
      simp [ackedAttributed, newRttSamples, hc, add_assoc]
    · rw [if_neg hc, ih]
      simp [ackedAttributed, newRttSamples, hc]

theorem attributeInterval_eq (acked_packets lost_packets : List CongestionEvent)
    (rtt_us : ℤ) (mi : MonitorInterval) :
    attributeInterval acked_packets lost_packets rtt_us mi =
      { mi with
        bytes_lost := mi.bytes_lost + lostAttributed lost_packets mi
        bytes_acked := mi.bytes_acked + ackedAttributed acked_packets mi
        packet_rtt_samples := mi.packet_rtt_samples ++
          newRttSamples acked_packets mi rtt_us } := by
  unfold attributeInterval
  rw [applyLost_eq]
  rw [applyAcked_eq]
  rfl

/-! ## processIntervals structure lemmas -/

theorem CalculateUtility_none_iff (rpow09 : ℚ → ℚ) (mi : MonitorInterval) :
    CalculateUtility rpow09 mi = none ↔
      mi.last_packet_sent_time = mi.first_packet_sent_time := by
  constructor
  · intro h
    by_contra hne
    simp [CalculateUtility, hne] at h
  · intro h
    simp [CalculateUtility, h]

theorem CalculateUtility_some_shape (rpow09 : ℚ → ℚ) (mi mi' : MonitorInterval)
    (h : CalculateUtility rpow09 mi = some mi') :
    mi' = { mi with utility := mi'.utility } := by
  by_cases hne : mi.last_packet_sent_time = mi.first_packet_sent_time
  · simp [CalculateUtility, hne] at h
  · simp only [CalculateUtility, if_neg hne, Option.some.injEq] at h
    rw [← h]

theorem processIntervals_forall2 (rpow09 : ℚ → ℚ)
    (acked_packets lost_packets : List CongestionEvent) (rtt_us event_time : ℤ)
    (l : List MonitorInterval) :
    List.Forall₂ (derivedFrom acked_packets lost_packets rtt_us) l
      (processIntervals rpow09 acked_packets lost_packets rtt_us event_time l).1 := by
  induction l with
  | nil => exact List.Forall₂.nil
  | cons mi rest ih =>
    simp only [processIntervals]
    split_ifs with h1 h2 h3
    · exact List.Forall₂.cons (Or.inl rfl) ih
    · exact List.Forall₂.cons (Or.inl rfl) ih
    · split
      · exact List.Forall₂.cons (Or.inr (Or.inr (Or.inl rfl)))
          (List.forall₂_same.mpr (fun x _ => Or.inl rfl))
      · rename_i mi3 hcu
        refine List.Forall₂.cons ?_ ih
        right; right; right
        have hshape := CalculateUtility_some_shape rpow09 _ _ hcu
        exact ⟨mi3.utility, hshape.trans rfl⟩
    · exact List.Forall₂.cons (Or.inr (Or.inl rfl)) ih

theorem attributeInterval_times (acked_packets lost_packets : List CongestionEvent)
    (rtt_us : ℤ) (mi : MonitorInterval) :
    (attributeInterval acked_packets lost_packets rtt_us mi).last_packet_sent_time =
      mi.last_packet_sent_time ∧
    (attributeInterval acked_packets lost_packets rtt_us mi).first_packet_sent_time =
      mi.first_packet_sent_time ∧
    (attributeInterval acked_packets lost_packets rtt_us mi).is_useful = mi.is_useful ∧
    (attributeInterval acked_packets lost_packets rtt_us mi).sending_rate = mi.sending_rate ∧
    (attributeInterval acked_packets lost_packets rtt_us mi).bytes_sent = mi.bytes_sent := by
  rw [attributeInterval_eq]
  exact ⟨rfl, rfl, rfl, rfl, rfl⟩

theorem derivedFrom_is_useful {acked_packets lost_packets : List CongestionEvent}
    {rtt_us : ℤ} {a b : MonitorInterval}
    (h : derivedFrom acked_packets lost_packets rtt_us a b) : b.is_useful = a.is_useful := by
  rcases h with rfl | rfl | rfl | ⟨u, rfl⟩
  · rfl
  · exact (attributeInterval_times _ _ _ _).2.2.1
  · exact (attributeInterval_times _ _ _ _).2.2.1
  · exact (attributeInterval_times _ _ _ _).2.2.1

theorem derivedFrom_sending_rate {acked_packets lost_packets : List CongestionEvent}
    {rtt_us : ℤ} {a b : MonitorInterval}
    (h : derivedFrom acked_packets lost_packets rtt_us a b) : b.sending_rate = a.sending_rate := by
  rcases h with rfl | rfl | rfl | ⟨u, rfl⟩
  · rfl
  · exact (attributeInterval_times _ _ _ _).2.2.2.1
  · exact (attributeInterval_times _ _ _ _).2.2.2.1
  · exact (attributeInterval_times _ _ _ _).2.2.2.1

/-- `CalculateUtility` on an interval stamped with the event rtt is invalid
iff the underlying interval's last and first sent times coincide. -/
theorem CalculateUtility_stamped_none_iff (rpow09 : ℚ → ℚ)
    (acked_packets lost_packets : List CongestionEvent) (rtt_us : ℤ)
    (mi : MonitorInterval) :
    CalculateUtility rpow09
        { attributeInterval acked_packets lost_packets rtt_us mi with
          rtt_on_monitor_end_us := rtt_us } = none ↔
      mi.last_packet_sent_time = mi.first_packet_sent_time := by
  rw [CalculateUtility_none_iff]
  rw [show ({ attributeInterval acked_packets lost_packets rtt_us mi with
      rtt_on_monitor_end_us := rtt_us } : MonitorInterval).last_packet_sent_time =
      (attributeInterval acked_packets lost_packets rtt_us mi).last_packet_sent_time from rfl]
  rw [show ({ attributeInterval acked_packets lost_packets rtt_us mi with
      rtt_on_monitor_end_us := rtt_us } : MonitorInterval).first_packet_sent_time =
      (attributeInterval acked_packets lost_packets rtt_us mi).first_packet_sent_time from rfl]
  rw [(attributeInterval_times _ _ _ _).1, (attributeInterval_times _ _ _ _).2.1]

theorem processIntervals_invalid_iff (rpow09 : ℚ → ℚ)
    (acked_packets lost_packets : List CongestionEvent) (rtt_us event_time : ℤ)
    (l : List MonitorInterval) :
    (processIntervals rpow09 acked_packets lost_packets rtt_us event_time l).2.2 = true ↔
      ∃ mi ∈ l, becomesInvalid acked_packets lost_packets rtt_us event_time mi := by
  induction l with
  | nil => simp [processIntervals]
  | cons mi rest ih =>
    simp only [processIntervals]
    split_ifs with h1 h2 h3
    · rcases hrec : processIntervals rpow09 acked_packets lost_packets rtt_us event_time rest
        with ⟨l', n, b⟩
      rw [hrec] at ih
      dsimp only at ih ⊢
      rw [ih]
      simp [becomesInvalid, h1]
    · rcases hrec : processIntervals rpow09 acked_packets lost_packets rtt_us event_time rest
        with ⟨l', n, b⟩
      rw [hrec] at ih
      dsimp only at ih ⊢
      rw [ih]
      simp [becomesInvalid, h2]
    · split
      · rename_i hcu
        have hlast := (CalculateUtility_stamped_none_iff rpow09 acked_packets lost_packets
          rtt_us mi).mp hcu
        have hu : mi.is_useful = true := by simpa using h1
        have hna : IsUtilityAvailable mi event_time = false := by simpa using h2
        dsimp only
        simp only [true_iff]
        exact ⟨mi, List.mem_cons_self mi rest, hu, hna, h3, hlast⟩
      · rename_i mi3 hcu
        have hlastne : ¬ mi.last_packet_sent_time = mi.first_packet_sent_time := by
          intro he
          exact Option.noConfusion
            (((CalculateUtility_stamped_none_iff rpow09 acked_packets lost_packets
              rtt_us mi).mpr he).symm.trans hcu)
        rcases hrec : processIntervals rpow09 acked_packets lost_packets rtt_us event_time rest
          with ⟨l', n, b⟩
        rw [hrec] at ih
        dsimp only at ih ⊢
        rw [ih]
        simp [becomesInvalid, hlastne]
    · rcases hrec : processIntervals rpow09 acked_packets lost_packets rtt_us event_time rest
        with ⟨l', n, b⟩
      rw [hrec] at ih
      dsimp only at ih ⊢
      rw [ih]
      simp [becomesInvalid, h3]

theorem processIntervals_count (rpow09 : ℚ → ℚ)
    (acked_packets lost_packets : List CongestionEvent) (rtt_us event_time : ℤ)
    (l : List MonitorInterval)
    (h : (processIntervals rpow09 acked_packets lost_packets rtt_us event_time l).2.2 = false) :
    (processIntervals rpow09 acked_packets lost_packets rtt_us event_time l).2.1 =
      l.countP (fun mi => mi.is_useful &&
        availAtEvent acked_packets lost_packets rtt_us event_time mi) := by
  induction l with
  | nil => simp [processIntervals]
  | cons mi rest ih =>
    simp only [processIntervals] at h ⊢
    split_ifs at h ⊢ with h1 h2 h3
    · rcases hrec : processIntervals rpow09 acked_packets lost_packets rtt_us event_time rest
        with ⟨l', n, b⟩
      rw [hrec] at ih h
      dsimp only at ih h ⊢
      rw [List.countP_cons]
      simp [h1, ih h]
    · rcases hrec : processIntervals rpow09 acked_packets lost_packets rtt_us event_time rest
        with ⟨l', n, b⟩
      rw [hrec] at ih h
      dsimp only at ih h ⊢
      rw [List.countP_cons]
      have hu : mi.is_useful = true := by simpa using h1
      simp [availAtEvent, h2, hu, ih h]
    · split
      · rename_i hcu
        rw [hcu] at h
        dsimp only at h
        exact absurd h (by simp)
      · rename_i mi3 hcu
        rw [hcu] at h
        dsimp only at h
        rcases hrec : processIntervals rpow09 acked_packets lost_packets rtt_us event_time rest
          with ⟨l', n, b⟩
        rw [hrec] at ih h
        dsimp only at ih h ⊢
        rw [List.countP_cons]
        have hu : mi.is_useful = true := by simpa using h1
        simp [availAtEvent, h3, hu, ih h]
    · rcases hrec : processIntervals rpow09 acked_packets lost_packets rtt_us event_time rest
        with ⟨l', n, b⟩
      rw [hrec] at ih h
      dsimp only at ih h ⊢
      rw [List.countP_cons]
      have hna : IsUtilityAvailable mi event_time = false := by simpa using h2
      have hna2 : IsUtilityAvailable
          (attributeInterval acked_packets lost_packets rtt_us mi) event_time = false := by
        simpa using h3
      simp [availAtEvent, hna, hna2, ih h]

theorem countUseful_forall2 {acked_packets lost_packets : List CongestionEvent}
    {rtt_us : ℤ} {l l' : List MonitorInterval}
    (h : List.Forall₂ (derivedFrom acked_packets lost_packets rtt_us) l l') :
    countUseful l' = countUseful l := by
  induction h with
  | nil => rfl
  | cons hab htail ihh =>
    simp only [countUseful, List.countP_cons] at ihh ⊢
    rw [derivedFrom_is_useful hab, ihh]

theorem forall2_mem_right {R : MonitorInterval → MonitorInterval → Prop}
    {l l' : List MonitorInterval} (h : List.Forall₂ R l l') :
    ∀ b ∈ l', ∃ a ∈ l, R a b := by
  induction h with
  | nil => intro b hb; cases hb
  | cons hab htail ihh =>
    intro b hb
    rcases List.mem_cons.mp hb with rfl | hb'
    · exact ⟨_, List.mem_cons_self _ _, hab⟩
    · rcases ihh b hb' with ⟨a, ha, hr⟩
      exact ⟨a, List.mem_cons_of_mem _ ha, hr⟩

theorem drainIntervals_spec (l : List MonitorInterval) (n : ℕ)
    (h : countUseful l = n) :
    (drainIntervals l n).2 = 0 ∧
    ∀ mi ∈ (drainIntervals l n).1, mi.is_useful = false := by
  induction l generalizing n with
  | nil =>
    cases n with
    | zero => exact ⟨rfl, by intro mi hmi; cases hmi⟩
    | succ k => simp [countUseful] at h
  | cons mi rest ih =>
    cases n with
    | zero =>
      refine ⟨rfl, ?_⟩
      intro x hx
      have := List.countP_eq_zero.mp h
      exact Bool.eq_false_iff.mpr (fun hu => by simpa [hu] using this x hx)
    | succ k =>
      rw [show drainIntervals (mi :: rest) (k + 1) =
        drainIntervals rest (if mi.is_useful then k else k + 1) from rfl]
      by_cases hu : mi.is_useful
      · rw [if_pos hu]
        apply ih
        simp only [countUseful] at h ⊢
        simp [List.countP_cons, hu] at h
        omega
      · rw [if_neg hu]
        apply ih
        simp only [countUseful] at h ⊢
        simp [List.countP_cons, hu] at h
        omega

theorem drainIntervals_subset (l : List MonitorInterval) (n : ℕ) :
    ∀ mi ∈ (drainIntervals l n).1, mi ∈ l := by
  induction l generalizing n with
  | nil =>
    cases n with
    | zero => intro mi hmi; exact hmi
    | succ k => intro mi hmi; exact hmi
  | cons mi rest ih =>
    cases n with
    | zero => intro x hx; exact hx
    | succ k =>
      rw [show drainIntervals (mi :: rest) (k + 1) =
        drainIntervals rest (if mi.is_useful then k else k + 1) from rfl]
      intro x hx
      exact List.mem_cons_of_mem _ (ih _ x hx)

theorem countP_and_le (l : List MonitorInterval) (p q : MonitorInterval → Bool) :
    l.countP (fun mi => p mi && q mi) ≤ l.countP p := by
  induction l with
  | nil => simp
  | cons a l ih =>
    by_cases hp : p a = true <;> by_cases hq : q a = true <;>
      simp [List.countP_cons, hp, hq] <;> omega

theorem countP_and_eq_of_all (l : List MonitorInterval) (p q : MonitorInterval → Bool)
    (hall : ∀ mi ∈ l, p mi = true → q mi = true) :
    l.countP (fun mi => p mi && q mi) = l.countP p := by
  induction l with
  | nil => rfl
  | cons a l ih =>
    have hrest := ih (fun mi hmi => hall mi (List.mem_cons_of_mem _ hmi))
    by_cases hp : p a = true
    · have hq := hall a (List.mem_cons_self _ _) hp
      simp [List.countP_cons, hp, hq, hrest]
    · have hp' : p a = false := by simpa using hp
      simp [List.countP_cons, hp', hrest]

theorem all_of_countP_and_eq (l : List MonitorInterval) (p q : MonitorInterval → Bool)
    (h : l.countP (fun mi => p mi && q mi) = l.countP p) :
    ∀ mi ∈ l, p mi = true → q mi = true := by
  induction l with
  | nil => intro mi hmi; cases hmi
  | cons a l ih =>
    have hle := countP_and_le l p q
    intro mi hmi hpmi
    rcases List.mem_cons.mp hmi with rfl | hmem
    · by_contra hq
      have hq' : q mi = false := by simpa using hq
      simp [List.countP_cons, hpmi, hq'] at h
      omega
    · refine ih ?_ mi hmem hpmi
      by_cases hpa : p a = true
      · by_cases hqa : q a = true
        · simp [List.countP_cons, hpa, hqa] at h
          omega
        · have hqa' : q a = false := by simpa using hqa
          simp [List.countP_cons, hpa, hqa'] at h
          omega
      · have hpa' : p a = false := by simpa using hpa
        simp [List.countP_cons, hpa'] at h
        omega

theorem filter_map_rate_forall2 {acked_packets lost_packets : List CongestionEvent}
    {rtt_us : ℤ} {l l' : List MonitorInterval}
    (h : List.Forall₂ (derivedFrom acked_packets lost_packets rtt_us) l l') :
    (l'.filter (fun mi => mi.is_useful)).map (fun mi => mi.sending_rate) =
      (l.filter (fun mi => mi.is_useful)).map (fun mi => mi.sending_rate) := by
  induction h with
  | nil => rfl
  | cons hab htail ihh =>
    rename_i a b la lb
    simp only [List.filter_cons]
    rw [derivedFrom_is_useful hab]
    by_cases hu : a.is_useful = true
    · simp [hu, ihh, derivedFrom_sending_rate hab]
    · simp [hu, ihh]

/-! ## Claim C4 -/

/-- C4: the queue's `OnCongestionEvent` calls the delegate exactly when every
useful interval is (or just became) utility-available and none completed with
invalid utility; the delivered batch lists, in FIFO order, one `UtilityInfo`
per useful interval and has length `num_useful_intervals`; right after
delivery the queue holds no useful interval and `num_available_intervals` is
0. -/
theorem claimC4_theorem (rpow09 : ℚ → ℚ) (q : MonitorIntervalQueue)
    (acked_packets lost_packets : List CongestionEvent) (rtt_us event_time : ℤ)
    (hcounter : q.num_useful_intervals = countUseful q.monitor_intervals)
    (hpos : 0 < q.num_useful_intervals) :
    ((q.OnCongestionEventStep rpow09 acked_packets lost_packets rtt_us event_time).2 ≠
        none ↔
      ((∀ mi ∈ q.monitor_intervals, mi.is_useful = true →
          availAtEvent acked_packets lost_packets rtt_us event_time mi = true) ∧
        ¬ ∃ mi ∈ q.monitor_intervals,
            becomesInvalid acked_packets lost_packets rtt_us event_time mi)) ∧
    (∀ ub, (q.OnCongestionEventStep rpow09 acked_packets lost_packets rtt_us
        event_time).2 = some ub →
      ub.length = q.num_useful_intervals ∧
      ub.map (fun u => u.sending_rate) =
        (q.monitor_intervals.filter (fun mi => mi.is_useful)).map
          (fun mi => mi.sending_rate) ∧
      (∀ mi ∈ (q.OnCongestionEventStep rpow09 acked_packets lost_packets rtt_us
          event_time).1.monitor_intervals, mi.is_useful = false) ∧
      (q.OnCongestionEventStep rpow09 acked_packets lost_packets rtt_us
          event_time).1.num_available_intervals = 0) := by
  have hne : ¬ q.num_useful_intervals = 0 := by omega
  rcases hrec : processIntervals rpow09 acked_packets lost_packets rtt_us event_time
    q.monitor_intervals with ⟨l', n, b⟩
  have hforall2 := processIntervals_forall2 rpow09 acked_packets lost_packets rtt_us
    event_time q.monitor_intervals
  rw [hrec] at hforall2
  dsimp only at hforall2
  have hcu : countUseful l' = countUseful q.monitor_intervals := countUseful_forall2 hforall2
  have hinv := processIntervals_invalid_iff rpow09 acked_packets lost_packets rtt_us
    event_time q.monitor_intervals
  rw [hrec] at hinv
  dsimp only at hinv
  simp only [MonitorIntervalQueue.OnCongestionEventStep, if_neg hne, hrec]
  by_cases hb : b = true
  · have hbf : ¬ b = false := by simp [hb]
    rw [if_neg (fun hcond => hbf hcond.2)]
    refine ⟨?_, ?_⟩
    · refine iff_of_false (by simp [hbf]) ?_
      intro hrhs
      exact hrhs.2 (hinv.mp hb)
    · intro ub hub
      rw [if_neg hbf] at hub
      exact absurd hub (by simp)
  · have hbf : b = false := by simpa using hb
    have hproc : (processIntervals rpow09 acked_packets lost_packets rtt_us event_time
        q.monitor_intervals).2.2 = false := by
      rw [hrec]
      exact hbf
    have hn := processIntervals_count rpow09 acked_packets lost_packets rtt_us event_time
      q.monitor_intervals hproc
    rw [hrec] at hn
    dsimp only at hn
    have hcountuseful : countUseful q.monitor_intervals =
        q.monitor_intervals.countP (fun mi => mi.is_useful) := rfl
    have hle2 : n ≤ q.num_useful_intervals := by
      rw [hn, hcounter, hcountuseful]
      exact countP_and_le _ _ _
    by_cases hdel : q.num_useful_intervals > n
    · rw [if_pos ⟨hdel, hbf⟩]
      refine ⟨?_, ?_⟩
      · refine iff_of_false (by simp) ?_
        intro hrhs
        have heq := countP_and_eq_of_all q.monitor_intervals _ _ hrhs.1
        rw [← hn, ← hcountuseful, ← hcounter] at heq
        omega
      · intro ub hub
        exact absurd hub (by simp)
    · rw [if_neg (fun hcond => hdel hcond.1)]
      have hneq : n = q.num_useful_intervals := by omega
      refine ⟨?_, ?_⟩
      · refine iff_of_true (by simp [hbf]) ?_
        constructor
        · apply all_of_countP_and_eq
          rw [← hn, ← hcountuseful, ← hcounter, hneq]
        · intro hex
          rw [hinv.mpr hex] at hbf
          exact absurd hbf (by simp)
      · intro ub hub
        rw [if_pos hbf] at hub
        have hub' : ub = utilityBatch l' := by
          exact (Option.some.injEq _ _ ▸ hub).symm
        subst hub'
        refine ⟨?_, ?_, ?_, rfl⟩
        · rw [show (utilityBatch l').length =
            (l'.filter (fun mi => mi.is_useful)).length from by simp [utilityBatch]]
          rw [← List.countP_eq_length_filter]
          rw [show l'.countP (fun mi => mi.is_useful) = countUseful l' from rfl]
          rw [hcu, ← hcounter]
        · rw [show (utilityBatch l').map (fun u => u.sending_rate) =
            (l'.filter (fun mi => mi.is_useful)).map (fun mi => mi.sending_rate) from by
              simp [utilityBatch]]
          exact filter_map_rate_forall2 hforall2
        · have hdrain := drainIntervals_spec l' q.num_useful_intervals
            (by rw [hcu, ← hcounter])
          exact hdrain.2

/-! ## Claim C3 -/

/-- C3: if some useful interval completes at this event with invalid utility
(single send instant), the controller's `OnCongestionEvent` removes every
useful interval from the queue without running the `OnUtilityAvailable` step:
mode, sending_rate, latest_utility_info and rounds are unchanged. -/
theorem claimC3_theorem (rpow09 : ℚ → ℚ) (c : CongestionController)
    (event_time rtt : ℤ) (acked_packets lost_packets : List CongestionEvent)
    (hcounter : c.queue.num_useful_intervals = countUseful c.queue.monitor_intervals)
    (hfp : ¬ rttInflationFastPath c rtt)
    (hex : ∃ mi ∈ c.queue.monitor_intervals,
      becomesInvalid acked_packets lost_packets rtt event_time mi) :
    (∀ mi ∈ (CongestionController.OnCongestionEvent rpow09 c event_time rtt acked_packets
        lost_packets).queue.monitor_intervals, mi.is_useful = false) ∧
    (CongestionController.OnCongestionEvent rpow09 c event_time rtt acked_packets
        lost_packets).mode = c.mode ∧
    (CongestionController.OnCongestionEvent rpow09 c event_time rtt acked_packets
        lost_packets).sending_rate = c.sending_rate ∧
    (CongestionController.OnCongestionEvent rpow09 c event_time rtt acked_packets
        lost_packets).latest_utility_info = c.latest_utility_info ∧
    (CongestionController.OnCongestionEvent rpow09 c event_time rtt acked_packets
        lost_packets).rounds = c.rounds := by
  have hpos : 0 < countUseful c.queue.monitor_intervals := by
    obtain ⟨mi, hmi, hbi⟩ := hex
    exact List.countP_pos_iff.mpr ⟨mi, hmi, hbi.1⟩
  have hne : ¬ c.queue.num_useful_intervals = 0 := by omega
  have hfp1 : ∀ v, ¬ rttInflationFastPath { c with avg_rtt := v } rtt :=
    fun v h => hfp ((rttInflationFastPath_avg c v rtt).mp h)
  have hinv := processIntervals_invalid_iff rpow09 acked_packets lost_packets rtt
    event_time c.queue.monitor_intervals
  by_cases hrtt : rtt ≠ 0
  · simp only [CongestionController.OnCongestionEvent, if_pos hrtt]
    rw [if_neg (hfp1 _), if_neg hne]
    rcases hrec : processIntervals rpow09 acked_packets lost_packets rtt event_time
      c.queue.monitor_intervals with ⟨l', n, b⟩
    rw [hrec] at hinv
    dsimp only at hinv
    have hforall2 := processIntervals_forall2 rpow09 acked_packets lost_packets rtt
      event_time c.queue.monitor_intervals
    rw [hrec] at hforall2
    dsimp only at hforall2
    have hcu : countUseful l' = countUseful c.queue.monitor_intervals :=
      countUseful_forall2 hforall2
    have hb : b = true := hinv.mpr hex
    rw [if_neg (fun hcond => by rw [hb] at hcond; exact absurd hcond.2 (by simp))]
    rw [if_neg (by simp [hb])]
    refine ⟨?_, rfl, rfl, rfl, rfl⟩
    dsimp only
    exact (drainIntervals_spec l' c.queue.num_useful_intervals (by rw [hcu, hcounter])).2
  · simp only [CongestionController.OnCongestionEvent, if_neg hrtt]
    rw [if_neg hfp, if_neg hne]
    rcases hrec : processIntervals rpow09 acked_packets lost_packets rtt event_time
      c.queue.monitor_intervals with ⟨l', n, b⟩
    rw [hrec] at hinv
    dsimp only at hinv
    have hforall2 := processIntervals_forall2 rpow09 acked_packets lost_packets rtt
      event_time c.queue.monitor_intervals
    rw [hrec] at hforall2
    dsimp only at hforall2
    have hcu : countUseful l' = countUseful c.queue.monitor_intervals :=
      countUseful_forall2 hforall2
    have hb : b = true := hinv.mpr hex
    rw [if_neg (fun hcond => by rw [hb] at hcond; exact absurd hcond.2 (by simp))]
    rw [if_neg (by simp [hb])]
    refine ⟨?_, rfl, rfl, rfl, rfl⟩
    dsimp only
    exact (drainIntervals_spec l' c.queue.num_useful_intervals (by rw [hcu, hcounter])).2

/-! ## Claim C8 -/

theorem updateLastInterval_mem (f : MonitorInterval → MonitorInterval)
    (l : List MonitorInterval) :
    ∀ x ∈ updateLastInterval f l, x ∈ l ∨ ∃ y ∈ l, x = f y := by
  induction l with
  | nil => intro x hx; cases hx
  | cons mi rest ih =>
    cases rest with
    | nil =>
      intro x hx
      rcases List.mem_singleton.mp hx with rfl
      exact Or.inr ⟨mi, List.mem_cons_self _ _, rfl⟩
    | cons mi2 rest2 =>
      intro x hx
      rw [show updateLastInterval f (mi :: mi2 :: rest2) =
        mi :: updateLastInterval f (mi2 :: rest2) from rfl] at hx
      rcases List.mem_cons.mp hx with rfl | hx'
      · exact Or.inl (List.mem_cons_self _ _)
      · rcases ih x hx' with hmem | ⟨y, hy, rfl⟩
        · exact Or.inl (List.mem_cons_of_mem _ hmem)
        · exact Or.inr ⟨y, List.mem_cons_of_mem _ hy, rfl⟩

theorem derivedFrom_invariant {acked_packets lost_packets : List CongestionEvent}
    {rtt_us : ℤ} {a b : MonitorInterval}
    (h : derivedFrom acked_packets lost_packets rtt_us a b)
    (hinv : intervalBytesInvariant a)
    (hbound : attributedBytes acked_packets lost_packets a ≤
      a.bytes_sent - a.bytes_acked - a.bytes_lost) :
    intervalBytesInvariant b := by
  simp only [intervalBytesInvariant, attributedBytes] at hinv hbound ⊢
  rcases h with rfl | rfl | rfl | ⟨u, rfl⟩
  · exact hinv
  · rw [attributeInterval_eq]
    dsimp only
    omega
  · rw [show ({ attributeInterval acked_packets lost_packets rtt_us a with
      rtt_on_monitor_end_us := rtt_us } : MonitorInterval).bytes_acked =
        (attributeInterval acked_packets lost_packets rtt_us a).bytes_acked from rfl]
    rw [show ({ attributeInterval acked_packets lost_packets rtt_us a with
      rtt_on_monitor_end_us := rtt_us } : MonitorInterval).bytes_lost =
        (attributeInterval acked_packets lost_packets rtt_us a).bytes_lost from rfl]
    rw [show ({ attributeInterval acked_packets lost_packets rtt_us a with
      rtt_on_monitor_end_us := rtt_us } : MonitorInterval).bytes_sent =
        (attributeInterval acked_packets lost_packets rtt_us a).bytes_sent from rfl]
    rw [attributeInterval_eq]
    dsimp only
    omega
  · rw [show ({ attributeInterval acked_packets lost_packets rtt_us a with
      rtt_on_monitor_end_us := rtt_us, utility := u } : MonitorInterval).bytes_acked =
        (attributeInterval acked_packets lost_packets rtt_us a).bytes_acked from rfl]
    rw [show ({ attributeInterval acked_packets lost_packets rtt_us a with
      rtt_on_monitor_end_us := rtt_us, utility := u } : MonitorInterval).bytes_lost =
        (attributeInterval acked_packets lost_packets rtt_us a).bytes_lost from rfl]
    rw [show ({ attributeInterval acked_packets lost_packets rtt_us a with
      rtt_on_monitor_end_us := rtt_us, utility := u } : MonitorInterval).bytes_sent =
        (attributeInterval acked_packets lost_packets rtt_us a).bytes_sent from rfl]
    rw [attributeInterval_eq]
    dsimp only
    omega

theorem OnCongestionEventStep_mem (rpow09 : ℚ → ℚ) (q : MonitorIntervalQueue)
    (acked_packets lost_packets : List CongestionEvent) (rtt_us event_time : ℤ) :
    ∀ mi' ∈ (q.OnCongestionEventStep rpow09 acked_packets lost_packets rtt_us
        event_time).1.monitor_intervals,
      ∃ mi ∈ q.monitor_intervals, derivedFrom acked_packets lost_packets rtt_us mi mi' := by
  intro mi' hmi'
  simp only [MonitorIntervalQueue.OnCongestionEventStep] at hmi'
  split_ifs at hmi' with h1 h2
  · exact ⟨mi', hmi', Or.inl rfl⟩
  · exact forall2_mem_right (processIntervals_forall2 rpow09 acked_packets lost_packets
      rtt_us event_time q.monitor_intervals) mi' hmi'
  all_goals
    dsimp only at hmi'
    exact forall2_mem_right (processIntervals_forall2 rpow09 acked_packets lost_packets
      rtt_us event_time q.monitor_intervals) mi'
      (drainIntervals_subset
        (processIntervals rpow09 acked_packets lost_packets rtt_us event_time
          q.monitor_intervals).1 q.num_useful_intervals mi' hmi')

/-- C8 as stated is false: attribution is additive and unchecked, so a
duplicate ack of packet 1 (100 bytes twice against 100 bytes sent) drives
`bytes_acked + bytes_lost` above `bytes_sent`. -/
theorem claimC8_counterexample :
    ¬ queueBytesInvariant
      (ceOpenQueue.OnCongestionEventStep (fun x => x)
        [{ packet_number := 1, bytes_acked := 100 },
         { packet_number := 1, bytes_acked := 100 }] [] 50 0).1 := by
  intro h
  have hmem : ({ ceOpenInterval with
      bytes_acked := 200
      packet_rtt_samples := [{ packet_number := 1, sample_rtt := 50 },
        { packet_number := 1, sample_rtt := 50 }] } : MonitorInterval) ∈
      (ceOpenQueue.OnCongestionEventStep (fun x => x)
        [{ packet_number := 1, bytes_acked := 100 },
         { packet_number := 1, bytes_acked := 100 }] [] 50 0).1.monitor_intervals := by
    decide
  have := h _ hmem
  simp [intervalBytesInvariant, ceOpenInterval] at this

/-- C8 amended: `bytes_acked + bytes_lost ≤ bytes_sent` is preserved by every
queue operation provided sent byte counts are nonnegative and each congestion
event attributes to each interval at most its remaining unaccounted bytes
(`bytes_sent − bytes_acked − bytes_lost`); with duplicate or oversized acks
the attribution is additive and unchecked and the invariant can fail (see the
counterexample). -/
theorem claimC8_theorem :
    (∀ (q : MonitorIntervalQueue) (rate : ℚ) (useful : Bool) (tol : ℚ)
      (rtt_us end_time : ℤ), queueBytesInvariant q →
      queueBytesInvariant (q.EnqueueNewMonitorInterval rate useful tol rtt_us end_time)) ∧
    (∀ (q : MonitorIntervalQueue) (sent_time packet_number bytes : ℤ), 0 ≤ bytes →
      queueBytesInvariant q → queueBytesInvariant (q.OnPacketSent sent_time packet_number bytes)) ∧
    (∀ q : MonitorIntervalQueue, queueBytesInvariant q.OnRttInflationInStarting) ∧
    (∀ (rpow09 : ℚ → ℚ) (q : MonitorIntervalQueue)
      (acked_packets lost_packets : List CongestionEvent) (rtt_us event_time : ℤ),
      queueBytesInvariant q →
      (∀ mi ∈ q.monitor_intervals, attributedBytes acked_packets lost_packets mi ≤
        mi.bytes_sent - mi.bytes_acked - mi.bytes_lost) →
      queueBytesInvariant
        (q.OnCongestionEventStep rpow09 acked_packets lost_packets rtt_us event_time).1) := by
  refine ⟨?_, ?_, ?_, ?_⟩
  · intro q rate useful tol rtt_us end_time hq mi hmi
    simp only [MonitorIntervalQueue.EnqueueNewMonitorInterval] at hmi
    rcases List.mem_append.mp hmi with h | h
    · exact hq mi h
    · rcases List.mem_singleton.mp h with rfl
      simp [intervalBytesInvariant, MonitorInterval.mkNew]
  · intro q sent_time packet_number bytes hb hq mi hmi
    simp only [MonitorIntervalQueue.OnPacketSent] at hmi
    rcases updateLastInterval_mem _ _ mi hmi with h | ⟨y, hy, rfl⟩
    · exact hq mi h
    · have hyinv := hq y hy
      simp only [intervalBytesInvariant] at hyinv ⊢
      split_ifs <;> (try dsimp only) <;> omega
  · intro q mi hmi
    cases hmi
  · intro rpow09 q acked_packets lost_packets rtt_us event_time hq hbound mi' hmi'
    rcases OnCongestionEventStep_mem rpow09 q acked_packets lost_packets rtt_us event_time
      mi' hmi' with ⟨mi, hmi, hder⟩
    exact derivedFrom_invariant hder (hq mi hmi) (hbound mi hmi)

/-- Witness for C8 (amended): acking 50 of the 100 outstanding bytes keeps
the invariant. -/
theorem claimC8_witness :
    queueBytesInvariant ceOpenQueue ∧
    (∀ mi ∈ ceOpenQueue.monitor_intervals,
      attributedBytes [{ packet_number := 1, bytes_acked := 50 }] [] mi ≤
        mi.bytes_sent - mi.bytes_acked - mi.bytes_lost) ∧
    queueBytesInvariant
      (ceOpenQueue.OnCongestionEventStep (fun x => x)
        [{ packet_number := 1, bytes_acked := 50 }] [] 50 0).1 := by
  have h1 : queueBytesInvariant ceOpenQueue := by decide
  have h2 : ∀ mi ∈ ceOpenQueue.monitor_intervals,
      attributedBytes [{ packet_number := 1, bytes_acked := 50 }] [] mi ≤
        mi.bytes_sent - mi.bytes_acked - mi.bytes_lost := by decide
  exact ⟨h1, h2, claimC8_theorem.2.2.2 (fun x => x) ceOpenQueue _ _ 50 0 h1 h2⟩

/-! ## Claim C10 -/

theorem EnterProbing_queue (c : CongestionController) : c.EnterProbing.queue = c.queue := by
  cases c with
  | mk mode sr lui md dir rnd q ag gs ir ar sb ra rp pc =>
    cases mode <;> simp [CongestionController.EnterProbing] <;> split_ifs <;> simp_all

theorem OnUtilityAvailable_queue (c : CongestionController) (batch : List UtilityInfo) :
    (c.OnUtilityAvailable batch).queue = c.queue := by
  rcases hmode : c.mode
  all_goals simp only [CongestionController.OnUtilityAvailable, hmode]
  all_goals split_ifs
  all_goals first
    | rfl
    | (rw [EnterProbing_queue, ComputeRateChange_queue])
    | (rw [EnterProbing_queue])
    | (dsimp only [CongestionController.EnterDecisionMade]; rw [ComputeRateChange_queue])

theorem derivedFrom_samples {acked_packets lost_packets : List CongestionEvent}
    {rtt_us : ℤ} {a b : MonitorInterval}
    (h : derivedFrom acked_packets lost_packets rtt_us a b) :
    (∀ s ∈ b.packet_rtt_samples, s ∈ a.packet_rtt_samples ∨ s.sample_rtt = rtt_us) ∧
    (b.rtt_on_monitor_end_us = a.rtt_on_monitor_end_us ∨
      b.rtt_on_monitor_end_us = rtt_us) := by
  have hnew : ∀ s ∈ newRttSamples acked_packets a rtt_us, s.sample_rtt = rtt_us := by
    intro s hs
    rcases List.mem_map.mp hs with ⟨ap, _, rfl⟩
    rfl
  rcases h with rfl | rfl | rfl | ⟨u, rfl⟩
  · exact ⟨fun s hs => Or.inl hs, Or.inl rfl⟩
  · rw [attributeInterval_eq]
    dsimp only
    refine ⟨?_, Or.inl rfl⟩
    intro s hs
    rcases List.mem_append.mp hs with h | h
    · exact Or.inl h
    · exact Or.inr (hnew s h)
  · constructor
    · intro s hs
      rw [show ({ attributeInterval acked_packets lost_packets rtt_us a with
          rtt_on_monitor_end_us := rtt_us } : MonitorInterval).packet_rtt_samples =
          (attributeInterval acked_packets lost_packets rtt_us a).packet_rtt_samples
          from rfl, attributeInterval_eq] at hs
      dsimp only at hs
      rcases List.mem_append.mp hs with h | h
      · exact Or.inl h
      · exact Or.inr (hnew s h)
    · exact Or.inr rfl
  · constructor
    · intro s hs
      rw [show ({ attributeInterval acked_packets lost_packets rtt_us a with
          rtt_on_monitor_end_us := rtt_us, utility := u } : MonitorInterval).packet_rtt_samples =
          (attributeInterval acked_packets lost_packets rtt_us a).packet_rtt_samples
          from rfl, attributeInterval_eq] at hs
      dsimp only at hs
      rcases List.mem_append.mp hs with h | h
      · exact Or.inl h
      · exact Or.inr (hnew s h)
    · exact Or.inr rfl

/-- An interval resulting from `processIntervals` takes every new RTT sample
and the written `rtt_on_monitor_end_us` from the raw `rtt` argument. -/
theorem c10_aux (rpow09 : ℚ → ℚ) (acked_packets lost_packets : List CongestionEvent)
    (rtt event_time : ℤ) (orig : List MonitorInterval) (mi' : MonitorInterval)
    (h : mi' ∈ (processIntervals rpow09 acked_packets lost_packets rtt event_time
      orig).1) :
    ∃ mi ∈ orig,
      (∀ s ∈ mi'.packet_rtt_samples, s ∈ mi.packet_rtt_samples ∨ s.sample_rtt = rtt) ∧
      (mi'.rtt_on_monitor_end_us = mi.rtt_on_monitor_end_us ∨
        mi'.rtt_on_monitor_end_us = rtt) := by
  obtain ⟨mi, hmi, hder⟩ := forall2_mem_right
    (processIntervals_forall2 rpow09 acked_packets lost_packets rtt event_time orig)
    mi' h
  exact ⟨mi, hmi, (derivedFrom_samples hder).1, (derivedFrom_samples hder).2⟩

/-- C10: every RTT sample and every `rtt_on_monitor_end_us` written during one
`OnCongestionEvent` carries the raw `rtt` argument of that event (anything
else in the resulting queue was already present before the event); in
particular all RTT data recorded by one event is the same value, and it is
never the smoothed `avg_rtt`. -/
theorem claimC10_theorem (rpow09 : ℚ → ℚ) (c : CongestionController)
    (event_time rtt : ℤ) (acked_packets lost_packets : List CongestionEvent) :
    ∀ mi' ∈ (CongestionController.OnCongestionEvent rpow09 c event_time rtt
        acked_packets lost_packets).queue.monitor_intervals,
      ∃ mi ∈ c.queue.monitor_intervals,
        (∀ s ∈ mi'.packet_rtt_samples, s ∈ mi.packet_rtt_samples ∨ s.sample_rtt = rtt) ∧
        (mi'.rtt_on_monitor_end_us = mi.rtt_on_monitor_end_us ∨
          mi'.rtt_on_monitor_end_us = rtt) := by
  intro mi' hmi'
  simp only [CongestionController.OnCongestionEvent] at hmi'
  split_ifs at hmi'
  all_goals (try dsimp only at hmi')
  all_goals first
    | (rw [EnterProbing_queue] at hmi';
       simp [MonitorIntervalQueue.OnRttInflationInStarting] at hmi')
    | (exact ⟨mi', hmi', fun s hs => Or.inl hs, Or.inl rfl⟩)
    | (exact c10_aux rpow09 acked_packets lost_packets rtt event_time _ mi' hmi')
    | (exact c10_aux rpow09 acked_packets lost_packets rtt event_time _ mi'
        (drainIntervals_subset _ _ mi' hmi'))
    | (rw [OnUtilityAvailable_queue] at hmi';
       dsimp only at hmi';
       exact c10_aux rpow09 acked_packets lost_packets rtt event_time _ mi'
        (drainIntervals_subset _ _ mi' hmi'))

/-- Witness for C3: a full ack of the single-send-instant useful interval at
event time 10 (raw rtt 0) drains the queue and leaves the rate untouched. -/
theorem claimC3_witness :
    ¬ rttInflationFastPath ceInvalidUtilityController 0 ∧
    (∃ mi ∈ ceInvalidUtilityController.queue.monitor_intervals,
      becomesInvalid
        [{ packet_number := 1, bytes_acked := 100, bytes_lost := 0, time := 0 }]
        [] 0 10 mi) ∧
    (∀ mi ∈ (CongestionController.OnCongestionEvent (fun x => x)
        ceInvalidUtilityController 10 0
        [{ packet_number := 1, bytes_acked := 100, bytes_lost := 0, time := 0 }]
        []).queue.monitor_intervals, mi.is_useful = false) ∧
    (CongestionController.OnCongestionEvent (fun x => x) ceInvalidUtilityController 10 0
        [{ packet_number := 1, bytes_acked := 100, bytes_lost := 0, time := 0 }]
        []).sending_rate = ceInvalidUtilityController.sending_rate := by
  refine ⟨by decide, ⟨ceSinglePacketInterval, by decide, by decide⟩, ?_, ?_⟩
  · exact (claimC3_theorem (fun x => x) ceInvalidUtilityController 10 0
      [{ packet_number := 1, bytes_acked := 100, bytes_lost := 0, time := 0 }] []
      (by decide) (by decide) ⟨ceSinglePacketInterval, by decide, by decide⟩).1
  · exact (claimC3_theorem (fun x => x) ceInvalidUtilityController 10 0
      [{ packet_number := 1, bytes_acked := 100, bytes_lost := 0, time := 0 }] []
      (by decide) (by decide) ⟨ceSinglePacketInterval, by decide, by decide⟩).2.2.1

/-- Witness for C4: fully acking the two-packet useful interval at event
time 10 makes the delegate batch non-`none`. -/
theorem claimC4_witness :
    ceTwoPacketQueue.num_useful_intervals =
      countUseful ceTwoPacketQueue.monitor_intervals ∧
    0 < ceTwoPacketQueue.num_useful_intervals ∧
    (ceTwoPacketQueue.OnCongestionEventStep (fun x => x)
        [{ packet_number := 1, bytes_acked := 100, bytes_lost := 0, time := 0 },
         { packet_number := 2, bytes_acked := 100, bytes_lost := 0, time := 0 }]
        [] 50 10).2 ≠ none := by
  refine ⟨by decide, by decide, ?_⟩
  exact ((claimC4_theorem (fun x => x) ceTwoPacketQueue
      [{ packet_number := 1, bytes_acked := 100, bytes_lost := 0, time := 0 },
       { packet_number := 2, bytes_acked := 100, bytes_lost := 0, time := 0 }]
      [] 50 10 (by decide) (by decide)).1).mpr ⟨by decide, by decide⟩

/-- Witness for C10: a no-op congestion event (raw rtt 0) leaves the single
interval in the queue, and its RTT data is old-or-equal-to-the-raw-rtt. -/
theorem claimC10_witness :
    ceSinglePacketInterval ∈ (CongestionController.OnCongestionEvent (fun x => x)
        ceInvalidUtilityController 0 0 [] []).queue.monitor_intervals ∧
    ∃ mi ∈ ceInvalidUtilityController.queue.monitor_intervals,
      (∀ s ∈ ceSinglePacketInterval.packet_rtt_samples,
        s ∈ mi.packet_rtt_samples ∨ s.sample_rtt = 0) ∧
      (ceSinglePacketInterval.rtt_on_monitor_end_us = mi.rtt_on_monitor_end_us ∨
        ceSinglePacketInterval.rtt_on_monitor_end_us = 0) :=
  ⟨by decide, claimC10_theorem (fun x => x) ceInvalidUtilityController 0 0 [] []
      ceSinglePacketInterval (by decide)⟩
